import Mathlib

/-!
A shallow embedding of the `alt` page cache (`src/buffer_cache/alt/page.cc`)
together with proofs about its acquisition-queue handoff algorithm, its
snapshot reference counting and its copy-on-write path.

Heap-allocated objects (`page_t`, `current_page_t`, `current_page_acq_t`)
are modelled by numeric identities into total maps held in a single `State`
record; allocation draws the next fresh identity from a counter, so pointer
identity becomes identity of the numeric id.  Machine fields are modelled as
`Nat` / `Bool` / `Option`; a `NULL` pointer is `Option.none`; the sentinel
`NULL_BLOCK_ID` is `none` in the `block_id` field.  One-shot condition
variables (`cond_t`) are modelled by a `Bool` that records whether they have
been pulsed.  Fatal `rassert` contract violations are modelled by operations
returning `Option State`, with `none` for an assertion failure.  External
collaborators (serializer, free block-id allocator) are modelled per section
6 of the design notes: the configured block size and the free list are state
fields, and the serializer buffer allocator returns an *uninitialized*
buffer, modelled by taking the allocated bytes as an explicit argument.
-/

namespace Alt

/-- Access mode of an acquisition (`alt_access_t`). -/
inductive Access where
  | read
  | write
deriving DecidableEq

/-- One `page_t` object: the in-memory buffer of one block.  `buf = none`
models a page whose asynchronous load is still in flight. -/
structure PageRec where
  buf : Option (List Nat)
  buf_size : Nat
  block_token : Option Nat
  snapshot_refcount : Nat
deriving DecidableEq

/-- One `current_page_acq_t` object. -/
structure AcqRec where
  access : Access
  declared_snapshotted : Bool
  read_cond : Bool
  write_cond : Bool
  current_page : Option Nat
  snapshotted_page : Option Nat
deriving DecidableEq

/-- One `current_page_t` object: `block_id = none` models `NULL_BLOCK_ID`,
`page` is the owned live `page_t` (by identity), `acquirers` is the intrusive
FIFO queue of acquisition identities in arrival order. -/
structure CurrentPageRec where
  block_id : Option Nat
  page : Option Nat
  acquirers : List Nat
deriving DecidableEq

/-- The whole heap plus the `page_cache_t` object.  `live_acqs` records which
acquisition objects are currently allocated (not yet destroyed); it is
bookkeeping of the model, mirroring C++ object lifetime. -/
structure State where
  pages : Nat → PageRec
  next_page : Nat
  acqs : Nat → AcqRec
  next_acq : Nat
  live_acqs : List Nat
  cps : Nat → CurrentPageRec
  next_cp : Nat
  current_pages : List (Option Nat)
  free_list : List Nat
  block_size : Nat

/-- Replace the record of one acquisition. -/
def updAcq (s : State) (a : Nat) (r : AcqRec) : State :=
  { s with acqs := fun x => if x = a then r else s.acqs x }

/-- Replace the record of one page. -/
def updPage (s : State) (p : Nat) (r : PageRec) : State :=
  { s with pages := fun x => if x = p then r else s.pages x }

/-- Replace the record of one current page. -/
def updCp (s : State) (c : Nat) (r : CurrentPageRec) : State :=
  { s with cps := fun x => if x = c then r else s.cps x }

/-- Helper for `prevIn`: `p` is the element preceding the head of the list. -/
def prevInAux (a p : Nat) : List Nat → Option Nat
  | [] => none
  | x :: xs => if x = a then some p else prevInAux a x xs

/-- Element just before the first occurrence of `a` (intrusive-list `prev`). -/
def prevIn (a : Nat) : List Nat → Option Nat
  | [] => none
  | x :: xs => if x = a then none else prevInAux a x xs

/-- Element just after the first occurrence of `a` (intrusive-list `next`). -/
def nextIn (a : Nat) : List Nat → Option Nat
  | [] => none
  | [_] => none
  | x :: y :: xs => if x = a then some y else nextIn a (y :: xs)

/-- The sublist starting at the first occurrence of `a`. -/
def suffixFrom (a : Nat) : List Nat → List Nat
  | [] => []
  | x :: xs => if x = a then x :: xs else suffixFrom a xs

/-- Embedding of `cond_t::pulse_if_not_already_pulsed` on `read_cond_`. -/
def setReadCond (s : State) (a : Nat) : State :=
  updAcq s a { s.acqs a with read_cond := true }

/-- Embedding of `cond_t::pulse_if_not_already_pulsed` on `write_cond_`. -/
def setWriteCond (s : State) (a : Nat) : State :=
  updAcq s a { s.acqs a with write_cond := true }

/-- Embedding of `page_t::add_snapshotter` (page.cc lines 271-274): the
acquisition parameter is unused by the source and increments the count. -/
def add_snapshotter (s : State) (p : Nat) : State :=
  updPage s p
    { s.pages p with snapshot_refcount := (s.pages p).snapshot_refcount + 1 }

/-- Embedding of `page_t::remove_snapshotter` (page.cc lines 276-280):
`rassert(snapshot_refcount_ > 0)` is a fatal contract violation, modelled by
`none`; otherwise the count is decremented. -/
def remove_snapshotter (s : State) (p : Nat) : Option State :=
  if (s.pages p).snapshot_refcount = 0 then none
  else some (updPage s p
    { s.pages p with snapshot_refcount := (s.pages p).snapshot_refcount - 1 })

/-- Embedding of `page_t::has_snapshot_references` (page.cc lines 282-284). -/
def has_snapshot_references (s : State) (p : Nat) : Bool :=
  decide (0 < (s.pages p).snapshot_refcount)

/-- A `page_t` constructed from a block id: its asynchronous load is spawned
and still in flight, so the buffer is unset and the size undefined. -/
def loading_page : PageRec :=
  { buf := none, buf_size := 0, block_token := none, snapshot_refcount := 0 }

/-- Allocate a fresh page object on the heap: returns its identity. -/
def allocPage (s : State) (r : PageRec) : Nat × State :=
  (s.next_page, { updPage s s.next_page r with next_page := s.next_page + 1 })

/-- Modelled from the spec: `page_t::make_copy` is declared in `page.hpp`,
which is not under `src/`; section 4.4 of the design notes says it produces a
new `Page` holding an independent copy of the current buffer, with the
original and its snapshot holders unaffected.  The copy starts with no
snapshotters and no durable token of its own. -/
def make_copy (r : PageRec) : PageRec :=
  { buf := r.buf, buf_size := r.buf_size, block_token := none,
    snapshot_refcount := 0 }

/-- Embedding of `current_page_t::convert_from_serializer_if_necessary`
(page.cc lines 188-194): if no `page_t` exists yet, construct one from the
block id (its load spawns asynchronously) and clear the deferred fields. -/
def convert_from_serializer_if_necessary (s : State) (cp : Nat) : State :=
  match (s.cps cp).page with
  | some _ => s
  | none =>
      let pr := allocPage s loading_page
      updCp pr.2 cp { pr.2.cps cp with page := some pr.1, block_id := none }

/-- Embedding of `current_page_t::the_page_for_read` (page.cc lines 196-199). -/
def the_page_for_read (s : State) (cp : Nat) : Nat × State :=
  let s1 := convert_from_serializer_if_necessary s cp
  ((s1.cps cp).page.getD 0, s1)

/-- Embedding of `current_page_t::the_page_for_write` (page.cc lines 201-207):
after materializing the page, clone it if it has snapshot references and
rebind the live-page slot to the clone. -/
def the_page_for_write (s : State) (cp : Nat) : Nat × State :=
  let s1 := convert_from_serializer_if_necessary s cp
  let p := (s1.cps cp).page.getD 0
  if has_snapshot_references s1 p then
    let pr := allocPage s1 (make_copy (s1.pages p))
    (pr.1, updCp pr.2 cp { pr.2.cps cp with page := some pr.1 })
  else (p, s1)

/-- Embedding of the snapshotter branch of the handoff walk (page.cc lines
166-173): grant the detaching reader a direct reference to the current page,
register it as a snapshotter of that page, and unlink it from the queue. -/
def detach_snapshotter (s : State) (cp a : Nat) : State :=
  let pr := the_page_for_read s cp
  let s3 := updAcq pr.2 a
    { pr.2.acqs a with snapshotted_page := some pr.1, current_page := none }
  let s4 := add_snapshotter s3 pr.1
  updCp s4 cp { s4.cps cp with acquirers := (s4.cps cp).acquirers.erase a }

/-- Embedding of the walk loop of `current_page_t::pulse_pulsables` (page.cc
lines 158-185).  The list argument is the chain of queue nodes from the seed
toward the tail; the source computes `next` before a snapshotter is unlinked,
so the chain is fixed when the walk starts. -/
def pulseWalk (cp : Nat) : State → List Nat → State
  | s, [] => s
  | s, cur :: rest =>
      let s1 := setReadCond s cur
      if (s1.acqs cur).access = Access.read then
        if (s1.acqs cur).declared_snapshotted = true then
          pulseWalk cp (detach_snapshotter s1 cp cur) rest
        else
          pulseWalk cp s1 rest
      else
        if prevIn cur (s1.cps cp).acquirers = none then setWriteCond s1 cur
        else s1

/-- Guard of `current_page_t::pulse_pulsables` (page.cc lines 144-150): the
node before the seed must be absent, or a reader already pulsed readable. -/
def prev_ok (s : State) (a : Nat) (q : List Nat) : Bool :=
  match prevIn a q with
  | none => true
  | some p => decide ((s.acqs p).access = Access.read) && (s.acqs p).read_cond

/-- Embedding of `current_page_t::pulse_pulsables` (page.cc lines 142-186). -/
def pulse_pulsables (s : State) (cp a : Nat) : State :=
  let q := (s.cps cp).acquirers
  if prev_ok s a q then
    if (s.acqs a).access = Access.read ∧ (s.acqs a).read_cond = true then s
    else pulseWalk cp s (suffixFrom a q)
  else s

/-- Embedding of `current_page_t::add_acquirer` (page.cc lines 129-132). -/
def add_acquirer (s : State) (cp a : Nat) : State :=
  let s1 := updCp s cp
    { s.cps cp with acquirers := (s.cps cp).acquirers ++ [a] }
  pulse_pulsables s1 cp a

/-- Embedding of `current_page_t::remove_acquirer` (page.cc lines 134-140):
the successor is looked up before unlinking, and pulsed afterwards. -/
def remove_acquirer (s : State) (cp a : Nat) : State :=
  let nx := nextIn a (s.cps cp).acquirers
  let s1 := updCp s cp
    { s.cps cp with acquirers := (s.cps cp).acquirers.erase a }
  match nx with
  | none => s1
  | some n => pulse_pulsables s1 cp n

/-- Fresh acquisition record as built by the `current_page_acq_t` constructor
(page.cc lines 58-64) before `add_acquirer` runs. -/
def freshAcq (acc : Access) (cp : Nat) : AcqRec :=
  { access := acc, declared_snapshotted := false, read_cond := false,
    write_cond := false, current_page := some cp, snapshotted_page := none }

/-- Embedding of the `current_page_acq_t` constructor (page.cc lines 58-64):
allocate the acquisition object and enqueue it on its current page. -/
def new_acq_ctor (s : State) (cp : Nat) (acc : Access) : Nat × State :=
  let a := s.next_acq
  let s1 := { updAcq s a (freshAcq acc cp) with
              next_acq := a + 1, live_acqs := a :: s.live_acqs }
  (a, add_acquirer s1 cp a)

/-- Embedding of the `current_page_acq_t` destructor (page.cc lines 66-73):
unlink from the current page if attached, then drop the snapshot reference if
detached as a snapshotter (`none` when that underflows, a fatal assertion).
Erasing the identity from `live_acqs` is the model counterpart of the object
ceasing to exist; in the unattached branch the field reads go to `s`
directly, which is the same record the destructor reads since unlinking
never rewrites the fields of the destroyed acquisition. -/
def destroy_acq (s : State) (a : Nat) : Option State :=
  let s0 := { s with live_acqs := s.live_acqs.erase a }
  match (s.acqs a).current_page with
  | some cp =>
      let s1 := remove_acquirer s0 cp a
      match (s1.acqs a).snapshotted_page with
      | some p => remove_snapshotter s1 p
      | none => some s1
  | none =>
      match (s.acqs a).snapshotted_page with
      | some p => remove_snapshotter s0 p
      | none => some s0

/-- Embedding of `current_page_acq_t::declare_snapshotted` (page.cc lines
75-83): only read acquisitions may declare (fatal otherwise); redeclaration
is allowed and does nothing; a first declaration marks the acquisition and
runs the handoff pass seeded at it (fatal if already detached). -/
def declare_snapshotted (s : State) (a : Nat) : Option State :=
  if (s.acqs a).access = Access.read then
    if (s.acqs a).declared_snapshotted = true then some s
    else
      match (s.acqs a).current_page with
      | some cp =>
          some (pulse_pulsables
            (updAcq s a { s.acqs a with declared_snapshotted := true }) cp a)
      | none => none
  else none

/-- Index into the sparse block-id map (`std::vector` indexing). -/
def vget : List (Option Nat) → Nat → Option Nat
  | [], _ => none
  | x :: _, 0 => x
  | _ :: xs, n + 1 => vget xs n

/-- Point update of the sparse block-id map. -/
def vset : List (Option Nat) → Nat → Option Nat → List (Option Nat)
  | [], _, _ => []
  | _ :: xs, 0, v => v :: xs
  | x :: xs, n + 1, v => x :: vset xs n v

/-- Embedding of `current_pages_.resize(block_id + 1, NULL)` guarded by the
size check (page.cc lines 38-40). -/
def ensure_size (l : List (Option Nat)) (bid : Nat) : List (Option Nat) :=
  if l.length ≤ bid then l ++ List.replicate (bid + 1 - l.length) none else l

/-- Embedding of `page_cache_t::page_for_block_id` (page.cc lines 37-47):
grow the map if needed, then return the registered current page, creating and
registering one in by-block-id form (no `page_t` yet) if the slot is empty. -/
def page_for_block_id (s : State) (bid : Nat) : Nat × State :=
  let cp0 := ensure_size s.current_pages bid
  match vget cp0 bid with
  | some c => (c, { s with current_pages := cp0 })
  | none =>
      let cid := s.next_cp
      (cid, { s with current_pages := vset cp0 bid (some cid),
                     next_cp := cid + 1,
                     cps := fun c => if c = cid then
                         { block_id := some bid, page := none, acquirers := [] }
                       else s.cps c })

/-- Embedding of `page_cache_t::page_for_new_block_id` (page.cc lines 49-56):
acquire a block id from the free list, build a `current_page_t` that directly
owns a resident `page_t` of the configured block size over the buffer the
serializer allocator returned (the bytes are an argument: section 6 of the
design notes specifies the allocator returns an uninitialized buffer), write
the id through the out-parameter, and return the pair.  The new current page
is not registered in `current_pages_`. -/
def page_for_new_block_id (s : State) (buf : List Nat) : Nat × Nat × State :=
  let bid := s.free_list.headD 0
  let s1 := { s with free_list := s.free_list.tail }
  let pr := allocPage s1
    { buf := some buf, buf_size := s.block_size, block_token := none,
      snapshot_refcount := 0 }
  let cid := pr.2.next_cp
  let s3 := { updCp pr.2 cid
                { block_id := none, page := some pr.1, acquirers := [] } with
              next_cp := cid + 1 }
  (cid, bid, s3)

/-- Embedding of the tail of `page_t::load_with_block_id` after the coroutine
resumes from the durable read (page.cc lines 258-269): if the destruction
flag was set while the load was suspended, return without touching anything;
otherwise install the actual block size, the buffer and the block token into
the page. -/
def load_with_block_id_resume (s : State) (pid : Nat) (page_destroyed : Bool)
    (buf : List Nat) (token token_size : Nat) : State :=
  if page_destroyed then s
  else updPage s pid
    { s.pages pid with buf_size := token_size, buf := some buf,
                       block_token := some token }

/-- The state of a freshly constructed `page_cache_t` over a serializer with
the given configured block size and free-list contents: no pages, no
acquisitions, no current pages registered. -/
def mkInit (bs : Nat) (fl : List Nat) : State :=
  { pages := fun _ => loading_page,
    next_page := 0,
    acqs := fun _ => { access := Access.read, declared_snapshotted := false,
                       read_cond := false, write_cond := false,
                       current_page := none, snapshotted_page := none },
    next_acq := 0,
    live_acqs := [],
    cps := fun _ => { block_id := none, page := none, acquirers := [] },
    next_cp := 0,
    current_pages := [],
    free_list := fl,
    block_size := bs }

section UpdateLemmas

variable {s : State} {a p c x : Nat} {r : AcqRec} {rp : PageRec} {rc : CurrentPageRec}

@[simp] theorem updAcq_pages : (updAcq s a r).pages = s.pages := rfl

@[simp] theorem updAcq_cps : (updAcq s a r).cps = s.cps := rfl

@[simp] theorem updAcq_live : (updAcq s a r).live_acqs = s.live_acqs := rfl

@[simp] theorem updAcq_next_page : (updAcq s a r).next_page = s.next_page := rfl

@[simp] theorem updAcq_next_acq : (updAcq s a r).next_acq = s.next_acq := rfl

@[simp] theorem updAcq_acqs_self : (updAcq s a r).acqs a = r := by
  simp [updAcq]

@[simp] theorem updAcq_acqs_of_ne (h : x ≠ a) : (updAcq s a r).acqs x = s.acqs x := by
  simp [updAcq, h]

@[simp] theorem updPage_acqs : (updPage s p rp).acqs = s.acqs := rfl

@[simp] theorem updPage_cps : (updPage s p rp).cps = s.cps := rfl

@[simp] theorem updPage_live : (updPage s p rp).live_acqs = s.live_acqs := rfl

@[simp] theorem updPage_next_page : (updPage s p rp).next_page = s.next_page := rfl

@[simp] theorem updPage_next_acq : (updPage s p rp).next_acq = s.next_acq := rfl

@[simp] theorem updPage_pages_self : (updPage s p rp).pages p = rp := by
  simp [updPage]

@[simp] theorem updPage_pages_of_ne (h : x ≠ p) : (updPage s p rp).pages x = s.pages x := by
  simp [updPage, h]

@[simp] theorem updCp_acqs : (updCp s c rc).acqs = s.acqs := rfl

@[simp] theorem updCp_pages : (updCp s c rc).pages = s.pages := rfl

@[simp] theorem updCp_live : (updCp s c rc).live_acqs = s.live_acqs := rfl

@[simp] theorem updCp_next_page : (updCp s c rc).next_page = s.next_page := rfl

@[simp] theorem updCp_next_acq : (updCp s c rc).next_acq = s.next_acq := rfl

@[simp] theorem updCp_cps_self : (updCp s c rc).cps c = rc := by
  simp [updCp]

@[simp] theorem updCp_cps_of_ne (h : x ≠ c) : (updCp s c rc).cps x = s.cps x := by
  simp [updCp, h]

@[simp] theorem setReadCond_access : ((setReadCond s a).acqs x).access = (s.acqs x).access := by
  by_cases h : x = a <;> simp [setReadCond, h]

@[simp] theorem setReadCond_declared :
    ((setReadCond s a).acqs x).declared_snapshotted = (s.acqs x).declared_snapshotted := by
  by_cases h : x = a <;> simp [setReadCond, h]

@[simp] theorem setReadCond_snap :
    ((setReadCond s a).acqs x).snapshotted_page = (s.acqs x).snapshotted_page := by
  by_cases h : x = a <;> simp [setReadCond, h]

@[simp] theorem setReadCond_cur :
    ((setReadCond s a).acqs x).current_page = (s.acqs x).current_page := by
  by_cases h : x = a <;> simp [setReadCond, h]

@[simp] theorem setReadCond_write_cond :
    ((setReadCond s a).acqs x).write_cond = (s.acqs x).write_cond := by
  by_cases h : x = a <;> simp [setReadCond, h]

@[simp] theorem setReadCond_read_cond_self : ((setReadCond s a).acqs a).read_cond = true := by
  simp [setReadCond]

@[simp] theorem setReadCond_read_cond_of_ne (h : x ≠ a) :
    ((setReadCond s a).acqs x).read_cond = (s.acqs x).read_cond := by
  simp [setReadCond, h]

@[simp] theorem setReadCond_pages : (setReadCond s a).pages = s.pages := rfl

@[simp] theorem setReadCond_cps : (setReadCond s a).cps = s.cps := rfl

@[simp] theorem setReadCond_live : (setReadCond s a).live_acqs = s.live_acqs := rfl

@[simp] theorem setReadCond_next_page : (setReadCond s a).next_page = s.next_page := rfl

@[simp] theorem setWriteCond_access : ((setWriteCond s a).acqs x).access = (s.acqs x).access := by
  by_cases h : x = a <;> simp [setWriteCond, h]

@[simp] theorem setWriteCond_declared :
    ((setWriteCond s a).acqs x).declared_snapshotted = (s.acqs x).declared_snapshotted := by
  by_cases h : x = a <;> simp [setWriteCond, h]

@[simp] theorem setWriteCond_snap :
    ((setWriteCond s a).acqs x).snapshotted_page = (s.acqs x).snapshotted_page := by
  by_cases h : x = a <;> simp [setWriteCond, h]

@[simp] theorem setWriteCond_cur :
    ((setWriteCond s a).acqs x).current_page = (s.acqs x).current_page := by
  by_cases h : x = a <;> simp [setWriteCond, h]

@[simp] theorem setWriteCond_read_cond :
    ((setWriteCond s a).acqs x).read_cond = (s.acqs x).read_cond := by
  by_cases h : x = a <;> simp [setWriteCond, h]

@[simp] theorem setWriteCond_write_cond_self :
    ((setWriteCond s a).acqs a).write_cond = true := by
  simp [setWriteCond]

@[simp] theorem setWriteCond_write_cond_of_ne (h : x ≠ a) :
    ((setWriteCond s a).acqs x).write_cond = (s.acqs x).write_cond := by
  simp [setWriteCond, h]

@[simp] theorem setWriteCond_pages : (setWriteCond s a).pages = s.pages := rfl

@[simp] theorem setWriteCond_cps : (setWriteCond s a).cps = s.cps := rfl

@[simp] theorem setWriteCond_live : (setWriteCond s a).live_acqs = s.live_acqs := rfl

@[simp] theorem setWriteCond_next_page : (setWriteCond s a).next_page = s.next_page := rfl

@[simp] theorem add_snapshotter_acqs : (add_snapshotter s p).acqs = s.acqs := rfl

@[simp] theorem add_snapshotter_cps : (add_snapshotter s p).cps = s.cps := rfl

@[simp] theorem add_snapshotter_live : (add_snapshotter s p).live_acqs = s.live_acqs := rfl

@[simp] theorem add_snapshotter_next_page : (add_snapshotter s p).next_page = s.next_page := rfl

@[simp] theorem add_snapshotter_next_acq : (add_snapshotter s p).next_acq = s.next_acq := rfl

@[simp] theorem add_snapshotter_refcount_self :
    ((add_snapshotter s p).pages p).snapshot_refcount = (s.pages p).snapshot_refcount + 1 := by
  simp [add_snapshotter]

@[simp] theorem add_snapshotter_pages_of_ne (h : x ≠ p) :
    (add_snapshotter s p).pages x = s.pages x := by
  simp [add_snapshotter, h]

end UpdateLemmas

section ConvertLemmas

variable {s : State} {cp c x : Nat}

/-- Materializing the page never touches the acquisition heap. -/
@[simp] theorem convert_acqs :
    (convert_from_serializer_if_necessary s cp).acqs = s.acqs := by
  unfold convert_from_serializer_if_necessary
  cases h : (s.cps cp).page <;> simp [allocPage]

@[simp] theorem convert_live :
    (convert_from_serializer_if_necessary s cp).live_acqs = s.live_acqs := by
  unfold convert_from_serializer_if_necessary
  cases h : (s.cps cp).page <;> simp [allocPage]

/-- Materializing the page never touches any acquirer queue. -/
@[simp] theorem convert_acquirers :
    ((convert_from_serializer_if_necessary s cp).cps c).acquirers =
      (s.cps c).acquirers := by
  unfold convert_from_serializer_if_necessary
  cases h : (s.cps cp).page
  · by_cases hc : c = cp <;> simp [allocPage, hc]
  · simp

@[simp] theorem convert_next_acq :
    (convert_from_serializer_if_necessary s cp).next_acq = s.next_acq := by
  unfold convert_from_serializer_if_necessary
  cases h : (s.cps cp).page <;> simp [allocPage]

/-- After materialization the live-page slot is set. -/
theorem convert_page_isSome :
    ((convert_from_serializer_if_necessary s cp).cps cp).page.isSome = true := by
  unfold convert_from_serializer_if_necessary
  cases h : (s.cps cp).page <;> simp [allocPage, h]

@[simp] theorem the_page_for_read_acqs :
    ((the_page_for_read s cp).2).acqs = s.acqs := by
  simp [the_page_for_read]

@[simp] theorem the_page_for_read_live :
    ((the_page_for_read s cp).2).live_acqs = s.live_acqs := by
  simp [the_page_for_read]

@[simp] theorem the_page_for_read_acquirers :
    (((the_page_for_read s cp).2).cps c).acquirers = (s.cps c).acquirers := by
  simp [the_page_for_read]

@[simp] theorem the_page_for_read_next_acq :
    ((the_page_for_read s cp).2).next_acq = s.next_acq := by
  simp [the_page_for_read]

end ConvertLemmas

section DetachLemmas

variable {s : State} {cp a c x : Nat}

@[simp] theorem detach_live : (detach_snapshotter s cp a).live_acqs = s.live_acqs := by
  simp [detach_snapshotter]

@[simp] theorem detach_next_acq :
    (detach_snapshotter s cp a).next_acq = s.next_acq := by
  simp [detach_snapshotter]

theorem detach_acqs_self :
    (detach_snapshotter s cp a).acqs a =
      { ((the_page_for_read s cp).2).acqs a with
        snapshotted_page := some (the_page_for_read s cp).1,
        current_page := none } := by
  simp [detach_snapshotter]

@[simp] theorem detach_acqs_of_ne (h : x ≠ a) :
    (detach_snapshotter s cp a).acqs x = s.acqs x := by
  simp [detach_snapshotter, h]

theorem detach_acquirers :
    ((detach_snapshotter s cp a).cps c).acquirers =
      if c = cp then ((s.cps cp).acquirers).erase a else (s.cps c).acquirers := by
  by_cases h : c = cp <;> simp [detach_snapshotter, h]

@[simp] theorem detach_access :
    ((detach_snapshotter s cp a).acqs x).access = (s.acqs x).access := by
  by_cases h : x = a
  · subst h; rw [detach_acqs_self]; simp
  · simp [h]

@[simp] theorem detach_declared :
    ((detach_snapshotter s cp a).acqs x).declared_snapshotted =
      (s.acqs x).declared_snapshotted := by
  by_cases h : x = a
  · subst h; rw [detach_acqs_self]; simp
  · simp [h]

@[simp] theorem detach_read_cond :
    ((detach_snapshotter s cp a).acqs x).read_cond = (s.acqs x).read_cond := by
  by_cases h : x = a
  · subst h; rw [detach_acqs_self]; simp
  · simp [h]

@[simp] theorem detach_write_cond :
    ((detach_snapshotter s cp a).acqs x).write_cond = (s.acqs x).write_cond := by
  by_cases h : x = a
  · subst h; rw [detach_acqs_self]; simp
  · simp [h]

end DetachLemmas

section WalkLemmas

variable {cp a x : Nat} {s : State} {l : List Nat}

theorem setReadCond_acqs_of_ne (h : x ≠ a) : (setReadCond s a).acqs x = s.acqs x := by
  simp [setReadCond, h]

theorem setWriteCond_acqs_of_ne (h : x ≠ a) : (setWriteCond s a).acqs x = s.acqs x := by
  simp [setWriteCond, h]

/-- The handoff walk never changes the access mode of any acquisition. -/
theorem pulseWalk_access (cp : Nat) (l : List Nat) (s : State) (x : Nat) :
    ((pulseWalk cp s l).acqs x).access = (s.acqs x).access := by
  induction l generalizing s with
  | nil => rfl
  | cons cur rest ih =>
      simp only [pulseWalk]
      split_ifs <;> simp [ih]

/-- The handoff walk never changes the snapshot-declaration flag. -/
theorem pulseWalk_declared (cp : Nat) (l : List Nat) (s : State) (x : Nat) :
    ((pulseWalk cp s l).acqs x).declared_snapshotted =
      (s.acqs x).declared_snapshotted := by
  induction l generalizing s with
  | nil => rfl
  | cons cur rest ih =>
      simp only [pulseWalk]
      split_ifs <;> simp [ih]

/-- The handoff walk never touches acquisitions outside its chain. -/
theorem pulseWalk_acqs_of_not_mem (cp : Nat) (l : List Nat) (s : State) (x : Nat)
    (hx : x ∉ l) : (pulseWalk cp s l).acqs x = s.acqs x := by
  induction l generalizing s with
  | nil => rfl
  | cons cur rest ih =>
      have hxc : x ≠ cur := fun h => hx (h ▸ List.mem_cons_self cur rest)
      have hxr : x ∉ rest := fun h => hx (List.mem_cons_of_mem cur h)
      simp only [pulseWalk]
      split_ifs
      · rw [ih _ hxr, detach_acqs_of_ne hxc, setReadCond_acqs_of_ne hxc]
      · rw [ih _ hxr, setReadCond_acqs_of_ne hxc]
      · rw [setWriteCond_acqs_of_ne hxc, setReadCond_acqs_of_ne hxc]
      · rw [setReadCond_acqs_of_ne hxc]

/-- The handoff walk never unsets a readable signal. -/
theorem pulseWalk_read_cond_mono (cp : Nat) (l : List Nat) (s : State) (x : Nat)
    (hx : (s.acqs x).read_cond = true) :
    ((pulseWalk cp s l).acqs x).read_cond = true := by
  induction l generalizing s with
  | nil => exact hx
  | cons cur rest ih =>
      have hset : ((setReadCond s cur).acqs x).read_cond = true := by
        by_cases h : x = cur
        · subst h; simp
        · simpa [setReadCond_read_cond_of_ne h]
      simp only [pulseWalk]
      split_ifs with h1 h2 h3
      · exact ih _ (by simpa using hset)
      · exact ih _ hset
      · by_cases h : x = cur
        · subst h; simp
        · simpa [setWriteCond_acqs_of_ne h] using hset
      · exact hset

/-- The handoff walk never changes the set of live acquisitions. -/
theorem pulseWalk_live (cp : Nat) (l : List Nat) (s : State) :
    (pulseWalk cp s l).live_acqs = s.live_acqs := by
  induction l generalizing s with
  | nil => rfl
  | cons cur rest ih =>
      simp only [pulseWalk]
      split_ifs <;> simp [ih]

theorem mem_of_mem_suffixFrom {a x : Nat} {l : List Nat}
    (h : x ∈ suffixFrom a l) : x ∈ l := by
  induction l with
  | nil => simp [suffixFrom] at h
  | cons y ys ih =>
      by_cases hy : y = a
      · simpa [suffixFrom, hy] using h
      · simp only [suffixFrom, if_neg hy] at h
        exact List.mem_cons_of_mem y (ih h)

theorem suffixFrom_nodup {a : Nat} {l : List Nat} (h : l.Nodup) :
    (suffixFrom a l).Nodup := by
  induction l with
  | nil => simp [suffixFrom]
  | cons y ys ih =>
      rcases List.nodup_cons.1 h with ⟨hy, hys⟩
      by_cases hya : y = a
      · simpa [suffixFrom, hya] using h
      · simpa [suffixFrom, hya] using ih hys

/-- The handoff pass never changes the access mode of any acquisition. -/
theorem pulse_pulsables_access (s : State) (cp a x : Nat) :
    ((pulse_pulsables s cp a).acqs x).access = (s.acqs x).access := by
  simp only [pulse_pulsables]
  by_cases h1 : prev_ok s a (s.cps cp).acquirers = true
  · by_cases h2 : (s.acqs a).access = Access.read ∧ (s.acqs a).read_cond = true
    · simp [h1, h2]
    · simp [h1, h2, pulseWalk_access]
  · simp [h1]

/-- The handoff pass never changes the snapshot-declaration flag. -/
theorem pulse_pulsables_declared (s : State) (cp a x : Nat) :
    ((pulse_pulsables s cp a).acqs x).declared_snapshotted =
      (s.acqs x).declared_snapshotted := by
  simp only [pulse_pulsables]
  by_cases h1 : prev_ok s a (s.cps cp).acquirers = true
  · by_cases h2 : (s.acqs a).access = Access.read ∧ (s.acqs a).read_cond = true
    · simp [h1, h2]
    · simp [h1, h2, pulseWalk_declared]
  · simp [h1]

/-- The handoff pass never changes the set of live acquisitions. -/
theorem pulse_pulsables_live (s : State) (cp a : Nat) :
    (pulse_pulsables s cp a).live_acqs = s.live_acqs := by
  simp only [pulse_pulsables]
  by_cases h1 : prev_ok s a (s.cps cp).acquirers = true
  · by_cases h2 : (s.acqs a).access = Access.read ∧ (s.acqs a).read_cond = true
    · simp [h1, h2]
    · simp [h1, h2, pulseWalk_live]
  · simp [h1]

end WalkLemmas


section SparseMapLemmas

theorem vget_some_lt {l : List (Option Nat)} {n c : Nat} (h : vget l n = some c) :
    n < l.length := by
  induction l generalizing n with
  | nil => simp [vget] at h
  | cons x xs ih =>
      cases n with
      | zero => simp
      | succ m =>
          simp only [vget] at h
          simpa using Nat.succ_lt_succ (ih h)

theorem vset_length (l : List (Option Nat)) (n : Nat) (v : Option Nat) :
    (vset l n v).length = l.length := by
  induction l generalizing n with
  | nil => rfl
  | cons x xs ih => cases n <;> simp [vset, ih]

theorem vget_vset_self {l : List (Option Nat)} {n : Nat} {v : Option Nat}
    (h : n < l.length) : vget (vset l n v) n = v := by
  induction l generalizing n with
  | nil => simp at h
  | cons x xs ih =>
      cases n with
      | zero => rfl
      | succ m => exact ih (Nat.lt_of_succ_lt_succ h)

theorem ensure_size_length_gt (l : List (Option Nat)) (bid : Nat) :
    bid < (ensure_size l bid).length := by
  unfold ensure_size
  split_ifs with h
  · simp only [List.length_append, List.length_replicate]
    omega
  · omega

theorem ensure_size_of_lt {l : List (Option Nat)} {bid : Nat}
    (h : bid < l.length) : ensure_size l bid = l := by
  unfold ensure_size
  rw [if_neg (by omega)]

theorem page_for_block_id_of_some {s : State} {bid c : Nat}
    (h : vget (ensure_size s.current_pages bid) bid = some c) :
    page_for_block_id s bid =
      (c, { s with current_pages := ensure_size s.current_pages bid }) := by
  simp only [page_for_block_id]
  rw [h]

theorem page_for_block_id_of_none {s : State} {bid : Nat}
    (h : vget (ensure_size s.current_pages bid) bid = none) :
    page_for_block_id s bid =
      (s.next_cp,
        { s with
          current_pages :=
            vset (ensure_size s.current_pages bid) bid (some s.next_cp),
          next_cp := s.next_cp + 1,
          cps := fun c => if c = s.next_cp then
              { block_id := some bid, page := none, acquirers := [] }
            else s.cps c }) := by
  simp only [page_for_block_id]
  rw [h]

end SparseMapLemmas

/-- C1 (amended part): `page_for_block_id` is idempotent: once a call has
returned a current page for a block id, calling it again on the resulting
cache returns the very same current page instance and leaves the cache
unchanged, so any number of calls with one id yield one instance. -/
theorem page_for_block_id_idem (s : State) (bid : Nat) :
    page_for_block_id (page_for_block_id s bid).2 bid = page_for_block_id s bid := by
  cases h : vget (ensure_size s.current_pages bid) bid with
  | some c =>
      rw [page_for_block_id_of_some h]
      have hlt : bid < (ensure_size s.current_pages bid).length :=
        ensure_size_length_gt _ _
      have hE : ensure_size (ensure_size s.current_pages bid) bid =
          ensure_size s.current_pages bid := ensure_size_of_lt hlt
      have h2 : vget (ensure_size
          ({ s with current_pages := ensure_size s.current_pages bid } :
            State).current_pages bid) bid = some c := by
        dsimp only
        rw [hE, h]
      rw [page_for_block_id_of_some h2]
      dsimp only
      rw [hE]
  | none =>
      rw [page_for_block_id_of_none h]
      have hlt : bid < (ensure_size s.current_pages bid).length :=
        ensure_size_length_gt _ _
      have hlt2 : bid <
          (vset (ensure_size s.current_pages bid) bid (some s.next_cp)).length := by
        rw [vset_length]; exact hlt
      have hE : ensure_size
          (vset (ensure_size s.current_pages bid) bid (some s.next_cp)) bid =
          vset (ensure_size s.current_pages bid) bid (some s.next_cp) :=
        ensure_size_of_lt hlt2
      have h2 : vget (ensure_size
          (vset (ensure_size s.current_pages bid) bid (some s.next_cp)) bid) bid =
          some s.next_cp := by
        rw [hE]; exact vget_vset_self hlt
      rw [page_for_block_id_of_some h2]
      dsimp only
      rw [hE]

/-- A cache over block size 1 whose free-id allocator will hand out id 3. -/
def exFresh1 : State := mkInit 1 [3]

/-- C1 counterexample: `page_for_new_block_id` does not register its current
page in `current_pages_`, so looking up the block id it just returned creates
a second, distinct `current_page_t` for that id: the identity returned by the
lookup differs from the identity returned by `page_for_new_block_id`. -/
theorem page_for_new_block_id_second_instance :
    (page_for_new_block_id exFresh1 [0]).2.1 = 3 ∧
    (page_for_block_id (page_for_new_block_id exFresh1 [0]).2.2 3).1 ≠
      (page_for_new_block_id exFresh1 [0]).1 := by decide

/-- C6 (amended part): `page_for_new_block_id` pops a fresh id off the free
list and returns it through the out-parameter, and returns a current page
directly owning an already-resident page (buffer present, so no load is in
flight) whose bytes are exactly the serializer-allocated buffer and whose
size is the configured block size. -/
theorem page_for_new_block_id_spec (s : State) (bytes : List Nat) :
    (page_for_new_block_id s bytes).2.1 = s.free_list.headD 0 ∧
    (page_for_new_block_id s bytes).2.2.free_list = s.free_list.tail ∧
    ((page_for_new_block_id s bytes).2.2.cps
        (page_for_new_block_id s bytes).1).page = some s.next_page ∧
    ((page_for_new_block_id s bytes).2.2.pages s.next_page).buf = some bytes ∧
    ((page_for_new_block_id s bytes).2.2.pages s.next_page).buf_size =
      s.block_size := by
  refine ⟨rfl, rfl, ?_, ?_, ?_⟩ <;> simp [page_for_new_block_id, allocPage]

/-- A cache over block size 2 whose free-id allocator will hand out id 5. -/
def exFresh2 : State := mkInit 2 [5]

/-- C6 counterexample: the page wrapped by the current page returned by
`page_for_new_block_id` keeps the uninitialized serializer buffer as is --
here bytes 7,7 -- and is not a zero-initialized buffer of the configured
block size, refuting the zero-initialization part of the claim. -/
theorem page_for_new_block_id_not_zeroed :
    ((page_for_new_block_id exFresh2 [7, 7]).2.2.cps
        (page_for_new_block_id exFresh2 [7, 7]).1).page = some 0 ∧
    ((page_for_new_block_id exFresh2 [7, 7]).2.2.pages 0).buf = some [7, 7] ∧
    ¬ ((page_for_new_block_id exFresh2 [7, 7]).2.2.pages 0).buf =
        some (List.replicate exFresh2.block_size 0) := by decide

theorem convert_of_some {s : State} {cp p : Nat}
    (hp : (s.cps cp).page = some p) :
    convert_from_serializer_if_necessary s cp = s := by
  unfold convert_from_serializer_if_necessary
  rw [hp]

/-- C3 (amended): when the seed of the handoff pass is a read-mode
acquisition whose readable signal is already pulsed, the pass returns the
state unchanged: nothing is signaled and nothing is detached. -/
theorem pulse_pulsables_read_seed_noop (s : State) (cp a : Nat)
    (h1 : (s.acqs a).access = Access.read)
    (h2 : (s.acqs a).read_cond = true) :
    pulse_pulsables s cp a = s := by
  simp [pulse_pulsables, h1, h2]

/-- A single write acquisition, alone in the queue of current page 0, with
its readable signal already pulsed but its writable signal not yet pulsed. -/
def exWriteSeed : State :=
  { mkInit 0 [] with
    acqs := fun _ => { access := Access.write, declared_snapshotted := false,
                       read_cond := true, write_cond := false,
                       current_page := some 0, snapshotted_page := none },
    next_acq := 1, live_acqs := [0],
    cps := fun _ => { block_id := some 0, page := none, acquirers := [0] },
    next_cp := 1 }

/-- C3 counterexample: the early-return guard of `pulse_pulsables` only fires
for read-mode seeds.  Seeding the pass at a write-mode acquisition whose
readable signal is already set does not stop it: the pass proceeds and pulses
the writable signal, so the claim quantified over both access modes fails. -/
theorem pulse_pulsables_write_seed_pulses :
    (exWriteSeed.acqs 0).access = Access.write ∧
    (exWriteSeed.acqs 0).read_cond = true ∧
    (exWriteSeed.acqs 0).write_cond = false ∧
    ((pulse_pulsables exWriteSeed 0 0).acqs 0).write_cond = true := by decide

/-- A single read acquisition, alone in the queue of current page 0, with its
readable signal already pulsed. -/
def exReadSeed : State :=
  { mkInit 0 [] with
    acqs := fun _ => { access := Access.read, declared_snapshotted := false,
                       read_cond := true, write_cond := false,
                       current_page := some 0, snapshotted_page := none },
    next_acq := 1, live_acqs := [0],
    cps := fun _ => { block_id := some 0, page := none, acquirers := [0] },
    next_cp := 1 }

/-- Witness for the amended C3 theorem at a concrete already-readable read
seed. -/
theorem pulse_pulsables_read_seed_noop_witness :
    pulse_pulsables exReadSeed 0 0 = exReadSeed :=
  pulse_pulsables_read_seed_noop exReadSeed 0 0 rfl rfl

/-- C10: when the live page of a current page has no snapshot references,
`the_page_for_write` makes no copy: it returns exactly what
`the_page_for_read` returns, namely the very same page instance, and the
whole state -- in particular the live-page binding -- is unchanged. -/
theorem the_page_for_write_no_copy (s : State) (cp p : Nat)
    (hp : (s.cps cp).page = some p)
    (hrc : (s.pages p).snapshot_refcount = 0) :
    the_page_for_write s cp = the_page_for_read s cp ∧
    the_page_for_write s cp = (p, s) ∧
    ((the_page_for_write s cp).2.cps cp).page = some p := by
  have hc : convert_from_serializer_if_necessary s cp = s := convert_of_some hp
  have hw : the_page_for_write s cp = (p, s) := by
    simp [the_page_for_write, hc, hp, has_snapshot_references, hrc]
  have hr : the_page_for_read s cp = (p, s) := by
    simp [the_page_for_read, hc, hp]
  exact ⟨hw.trans hr.symm, hw, by rw [hw]; exact hp⟩

/-- A state with one current page (id 0) owning resident page 0 with bytes
4,2, and one detached snapshot acquisition holding a snapshot reference. -/
def exSnapPage : State :=
  { mkInit 2 [] with
    pages := fun _ => { buf := some [4, 2], buf_size := 2, block_token := none,
                        snapshot_refcount := 1 },
    next_page := 1,
    acqs := fun _ => { access := Access.read, declared_snapshotted := true,
                       read_cond := true, write_cond := false,
                       current_page := none, snapshotted_page := some 0 },
    next_acq := 1, live_acqs := [0],
    cps := fun _ => { block_id := none, page := some 0, acquirers := [] },
    next_cp := 1 }

/-- A state with one current page (id 0) owning resident page 0 with no
snapshot references. -/
def exResidentZero : State :=
  { mkInit 2 [] with
    pages := fun _ => { buf := some [4, 2], buf_size := 2, block_token := none,
                        snapshot_refcount := 0 },
    next_page := 1,
    cps := fun _ => { block_id := none, page := some 0, acquirers := [] },
    next_cp := 1 }

/-- Witness for the C10 theorem at a concrete zero-refcount page. -/
theorem the_page_for_write_no_copy_witness :
    the_page_for_write exResidentZero 0 = the_page_for_read exResidentZero 0 :=
  (the_page_for_write_no_copy exResidentZero 0 0 rfl rfl).1


/-- C5: when the live page of a current page has snapshot references,
`the_page_for_write` returns a page distinct by identity from the previous
live page, whose buffer bytes are a copy of the live bytes, rebinds the
live-page slot of the current page to that clone, and leaves every
previously existing page -- in particular every page a snapshot handle can
reference -- unchanged. -/
theorem the_page_for_write_clones (s : State) (cp p : Nat)
    (hp : (s.cps cp).page = some p)
    (hrc : 0 < (s.pages p).snapshot_refcount)
    (hlt : p < s.next_page) :
    (the_page_for_write s cp).1 ≠ p ∧
    ((the_page_for_write s cp).2.pages (the_page_for_write s cp).1).buf =
      (s.pages p).buf ∧
    ((the_page_for_write s cp).2.cps cp).page =
      some (the_page_for_write s cp).1 ∧
    (∀ q, q < s.next_page → (the_page_for_write s cp).2.pages q = s.pages q) := by
  have hc : convert_from_serializer_if_necessary s cp = s := convert_of_some hp
  have hhs : has_snapshot_references s p = true := by
    simp [has_snapshot_references, hrc]
  refine ⟨?_, ?_, ?_, ?_⟩
  · simp only [the_page_for_write, hc, hp, Option.getD_some, hhs, if_true,
               allocPage]
    omega
  · simp [the_page_for_write, hc, hp, hhs, allocPage, make_copy]
  · simp [the_page_for_write, hc, hp, hhs, allocPage]
  · intro q hq
    have hqn : q ≠ s.next_page := by omega
    simp [the_page_for_write, hc, hp, hhs, allocPage, updPage_pages_of_ne hqn]

/-- Witness for the C5 theorem: on a concrete page with one snapshot
reference, the write path hands back the bytes of the old page in a fresh
instance. -/
theorem the_page_for_write_clones_witness :
    ((the_page_for_write exSnapPage 0).2.pages
        (the_page_for_write exSnapPage 0).1).buf = (exSnapPage.pages 0).buf :=
  (the_page_for_write_clones exSnapPage 0 0 rfl (by decide) (by decide)).2.1

/-- C8: after the asynchronous load resumes from the durable read it checks
the destruction flag: if the flag was set the whole state is returned
untouched (the loaded buffer is discarded and neither the page nor any cache
state is mutated); if the flag was clear the buffer, the block token and the
actual block size are installed into the page, and nothing else changes. -/
theorem load_with_block_id_resume_spec (s : State) (pid : Nat)
    (buf : List Nat) (token token_size : Nat) :
    load_with_block_id_resume s pid true buf token token_size = s ∧
    ((load_with_block_id_resume s pid false buf token token_size).pages
        pid).buf = some buf ∧
    ((load_with_block_id_resume s pid false buf token token_size).pages
        pid).block_token = some token ∧
    ((load_with_block_id_resume s pid false buf token token_size).pages
        pid).buf_size = token_size ∧
    (∀ q, q ≠ pid →
      (load_with_block_id_resume s pid false buf token token_size).pages q =
        s.pages q) ∧
    (load_with_block_id_resume s pid false buf token token_size).acqs =
      s.acqs ∧
    (load_with_block_id_resume s pid false buf token token_size).cps = s.cps ∧
    (load_with_block_id_resume s pid false buf token token_size).live_acqs =
      s.live_acqs := by
  refine ⟨rfl, ?_, ?_, ?_, ?_, rfl, rfl, rfl⟩
  · simp [load_with_block_id_resume]
  · simp [load_with_block_id_resume]
  · simp [load_with_block_id_resume]
  · intro q hq
    simp [load_with_block_id_resume, updPage_pages_of_ne hq]

/-- Witness for the C8 theorem: a destroyed-while-loading page leaves a
concrete state untouched. -/
theorem load_with_block_id_resume_spec_witness :
    load_with_block_id_resume exResidentZero 0 true [9] 1 2 = exResidentZero :=
  (load_with_block_id_resume_spec exResidentZero 0 [9] 1 2).1

/-- C4: when the handoff walk reaches a read-mode node that has declared
itself a snapshot, it pulses the readable signal of that node, hands it a
direct reference to the current page, increments the snapshot reference
count of that page by one, unlinks the node from the queue, and continues
the walk at the former successor chain of the node. -/
theorem pulseWalk_snapshotter_detach (cp : Nat) (s : State) (a : Nat)
    (rest : List Nat)
    (hacc : (s.acqs a).access = Access.read)
    (hdecl : (s.acqs a).declared_snapshotted = true) :
    pulseWalk cp s (a :: rest) =
      pulseWalk cp (detach_snapshotter (setReadCond s a) cp a) rest ∧
    ((detach_snapshotter (setReadCond s a) cp a).acqs a).read_cond = true ∧
    ((detach_snapshotter (setReadCond s a) cp a).acqs a).snapshotted_page =
      some (the_page_for_read (setReadCond s a) cp).1 ∧
    ((detach_snapshotter (setReadCond s a) cp a).acqs a).current_page = none ∧
    ((detach_snapshotter (setReadCond s a) cp a).pages
        (the_page_for_read (setReadCond s a) cp).1).snapshot_refcount =
      (((the_page_for_read (setReadCond s a) cp).2).pages
          (the_page_for_read (setReadCond s a) cp).1).snapshot_refcount + 1 ∧
    ((detach_snapshotter (setReadCond s a) cp a).cps cp).acquirers =
      ((s.cps cp).acquirers).erase a := by
  have h1 : ((setReadCond s a).acqs a).access = Access.read := by simp [hacc]
  have h2 : ((setReadCond s a).acqs a).declared_snapshotted = true := by
    simp [hdecl]
  refine ⟨?_, ?_, ?_, ?_, ?_, ?_⟩
  · simp only [pulseWalk, h1, h2, if_true]
  · simp
  · rw [detach_acqs_self]
  · rw [detach_acqs_self]
  · simp [detach_snapshotter]
  · rw [detach_acquirers]
    simp

/-- A read acquisition that has declared itself a snapshotter, queued alone
on current page 0, which owns resident page 0 with no snapshot references. -/
def exSnapDeclared : State :=
  { mkInit 2 [] with
    pages := fun _ => { buf := some [4, 2], buf_size := 2, block_token := none,
                        snapshot_refcount := 0 },
    next_page := 1,
    acqs := fun _ => { access := Access.read, declared_snapshotted := true,
                       read_cond := false, write_cond := false,
                       current_page := some 0, snapshotted_page := none },
    next_acq := 1, live_acqs := [0],
    cps := fun _ => { block_id := none, page := some 0, acquirers := [0] },
    next_cp := 1 }

/-- Witness for the C4 theorem: detaching a concrete declared snapshotter
increments the snapshot reference count of the page it was handed. -/
theorem pulseWalk_snapshotter_detach_witness :
    ((detach_snapshotter (setReadCond exSnapDeclared 0) 0 0).pages
        (the_page_for_read (setReadCond exSnapDeclared 0) 0).1).snapshot_refcount =
      (((the_page_for_read (setReadCond exSnapDeclared 0) 0).2).pages
          (the_page_for_read (setReadCond exSnapDeclared 0) 0).1).snapshot_refcount
        + 1 :=
  (pulseWalk_snapshotter_detach 0 exSnapDeclared 0 [] rfl rfl).2.2.2.2.1


/-- C2: in the handoff walk over a chain whose first write-mode node is `w`
(everything before it reads), every node up to and including `w` gets its
readable signal set, `w` gets its writable signal set if and only if it has
no predecessor remaining in the queue after the pass, and the walk stops at
`w`: every node past it is left completely untouched by the pass. -/
theorem pulseWalk_first_writer (cp : Nat) (s : State) (l1 l2 : List Nat)
    (w : Nat)
    (hnd : (l1 ++ w :: l2).Nodup)
    (hreads : ∀ a ∈ l1, (s.acqs a).access = Access.read)
    (hw : (s.acqs w).access = Access.write)
    (hwc : (s.acqs w).write_cond = false) :
    (∀ a ∈ l1, ((pulseWalk cp s (l1 ++ w :: l2)).acqs a).read_cond = true) ∧
    ((pulseWalk cp s (l1 ++ w :: l2)).acqs w).read_cond = true ∧
    (((pulseWalk cp s (l1 ++ w :: l2)).acqs w).write_cond = true ↔
      prevIn w ((pulseWalk cp s (l1 ++ w :: l2)).cps cp).acquirers = none) ∧
    (∀ a ∈ l2, (pulseWalk cp s (l1 ++ w :: l2)).acqs a = s.acqs a) := by
  induction l1 generalizing s with
  | nil =>
      have hnd1 : (w :: l2).Nodup := by rwa [List.nil_append] at hnd
      have hwl2 : w ∉ l2 := (List.nodup_cons.1 hnd1).1
      simp only [List.nil_append, pulseWalk]
      have hcond : ¬ (((setReadCond s w).acqs w).access = Access.read) := by
        simp [hw]
      rw [if_neg hcond]
      simp only [setReadCond_cps]
      by_cases hprev : prevIn w (s.cps cp).acquirers = none
      · rw [if_pos hprev]
        refine ⟨by simp, by simp, ?_, ?_⟩
        · simp [hprev]
        · intro a ha
          have haw : a ≠ w := fun h => hwl2 (h ▸ ha)
          rw [setWriteCond_acqs_of_ne haw, setReadCond_acqs_of_ne haw]
      · rw [if_neg hprev]
        refine ⟨by simp, by simp, ?_, ?_⟩
        · simp [hwc, hprev]
        · intro a ha
          have haw : a ≠ w := fun h => hwl2 (h ▸ ha)
          rw [setReadCond_acqs_of_ne haw]
  | cons b l1' ih =>
      have hnd1 : (b :: (l1' ++ w :: l2)).Nodup := by
        rwa [List.cons_append] at hnd
      have hbn : b ∉ l1' ++ w :: l2 := (List.nodup_cons.1 hnd1).1
      have hnd' : (l1' ++ w :: l2).Nodup := (List.nodup_cons.1 hnd1).2
      have hb : (s.acqs b).access = Access.read := hreads b (List.mem_cons_self b l1')
      have hbw : w ≠ b := by
        intro h
        exact hbn (h ▸ List.mem_append_right l1' (List.mem_cons_self w l2))
      simp only [List.cons_append, pulseWalk]
      have hcond : ((setReadCond s b).acqs b).access = Access.read := by simp [hb]
      rw [if_pos hcond]
      by_cases hd : ((setReadCond s b).acqs b).declared_snapshotted = true
      · rw [if_pos hd]
        set s' := detach_snapshotter (setReadCond s b) cp b with hs'
        have hreads' : ∀ a ∈ l1', (s'.acqs a).access = Access.read := by
          intro a ha
          simp [hs', hreads a (List.mem_cons_of_mem b ha)]
        have hw' : (s'.acqs w).access = Access.write := by simp [hs', hw]
        have hwc' : (s'.acqs w).write_cond = false := by simp [hs', hwc]
        obtain ⟨c1, c2, c3, c4⟩ := ih s' hnd' hreads' hw' hwc'
        refine ⟨?_, c2, c3, ?_⟩
        · intro a ha
          rcases List.mem_cons.1 ha with h | h
          · subst h
            apply pulseWalk_read_cond_mono
            simp [hs']
          · exact c1 a h
        · intro a ha
          have hab : a ≠ b := by
            intro h
            exact hbn (h ▸ List.mem_append_right l1' (List.mem_cons_of_mem w ha))
          have h2 : s'.acqs a = s.acqs a := by
            rw [hs', detach_acqs_of_ne hab, setReadCond_acqs_of_ne hab]
          exact (c4 a ha).trans h2
      · rw [if_neg hd]
        set s' := setReadCond s b with hs'
        have hreads' : ∀ a ∈ l1', (s'.acqs a).access = Access.read := by
          intro a ha
          simp [hs', hreads a (List.mem_cons_of_mem b ha)]
        have hw' : (s'.acqs w).access = Access.write := by simp [hs', hw]
        have hwc' : (s'.acqs w).write_cond = false := by simp [hs', hwc]
        obtain ⟨c1, c2, c3, c4⟩ := ih s' hnd' hreads' hw' hwc'
        refine ⟨?_, c2, c3, ?_⟩
        · intro a ha
          rcases List.mem_cons.1 ha with h | h
          · subst h
            apply pulseWalk_read_cond_mono
            simp [hs']
          · exact c1 a h
        · intro a ha
          have hab : a ≠ b := by
            intro h
            exact hbn (h ▸ List.mem_append_right l1' (List.mem_cons_of_mem w ha))
          have h2 : s'.acqs a = s.acqs a := by
            rw [hs', setReadCond_acqs_of_ne hab]
          exact (c4 a ha).trans h2

/-- A reader, a writer and a reader queued in arrival order 0, 1, 2 on
current page 0, nothing pulsed yet. -/
def exQueueRWR : State :=
  { mkInit 2 [] with
    pages := fun _ => { buf := some [4, 2], buf_size := 2, block_token := none,
                        snapshot_refcount := 0 },
    next_page := 1,
    acqs := fun a =>
      if a = 1 then
        { access := Access.write, declared_snapshotted := false,
          read_cond := false, write_cond := false,
          current_page := some 0, snapshotted_page := none }
      else
        { access := Access.read, declared_snapshotted := false,
          read_cond := false, write_cond := false,
          current_page := some 0, snapshotted_page := none },
    next_acq := 3, live_acqs := [0, 1, 2],
    cps := fun _ => { block_id := none, page := some 0, acquirers := [0, 1, 2] },
    next_cp := 1 }

/-- Witness for the C2 theorem on the concrete reader-writer-reader queue:
the writer becomes writable exactly when no predecessor remains queued. -/
theorem pulseWalk_first_writer_witness :
    (((pulseWalk 0 exQueueRWR [0, 1, 2]).acqs 1).write_cond = true ↔
      prevIn 1 ((pulseWalk 0 exQueueRWR [0, 1, 2]).cps 0).acquirers = none) :=
  (pulseWalk_first_writer 0 exQueueRWR [0] [2] 1 (by decide) (by decide)
    rfl rfl).2.2.1


/-- C9: declaring a read acquisition snapshotted twice has the same
observable effect as declaring it once: if a call to `declare_snapshotted`
succeeds with some resulting state, running `declare_snapshotted` again on
that state returns it unchanged -- no additional detachment, snapshot
reference count increment or handoff pass takes place. -/
theorem declare_snapshotted_idempotent (s s' : State) (a : Nat)
    (h : declare_snapshotted s a = some s') :
    declare_snapshotted s' a = some s' := by
  unfold declare_snapshotted at h
  by_cases hacc : (s.acqs a).access = Access.read
  · rw [if_pos hacc] at h
    by_cases hdecl : (s.acqs a).declared_snapshotted = true
    · rw [if_pos hdecl] at h
      have hs : s' = s := by
        injection h with h2
        exact h2.symm
      subst hs
      unfold declare_snapshotted
      rw [if_pos hacc, if_pos hdecl]
    · rw [if_neg hdecl] at h
      cases hcp : (s.acqs a).current_page with
      | none =>
          rw [hcp] at h
          cases h
      | some cp =>
          rw [hcp] at h
          have hs : s' = pulse_pulsables
              (updAcq s a { s.acqs a with declared_snapshotted := true })
              cp a := by
            injection h with h2
            exact h2.symm
          subst hs
          have hacc2 : ((pulse_pulsables
              (updAcq s a { s.acqs a with declared_snapshotted := true })
              cp a).acqs a).access = Access.read := by
            rw [pulse_pulsables_access]
            simpa using hacc
          have hdecl2 : ((pulse_pulsables
              (updAcq s a { s.acqs a with declared_snapshotted := true })
              cp a).acqs a).declared_snapshotted = true := by
            rw [pulse_pulsables_declared]
            simp
          unfold declare_snapshotted
          rw [if_pos hacc2, if_pos hdecl2]
  · rw [if_neg hacc] at h
    cases h

/-- The first snapshot declaration on the concrete single-reader state
succeeds. -/
theorem declare_snapshotted_exReadSeed_isSome :
    (declare_snapshotted exReadSeed 0).isSome = true := by decide

/-- Witness for the C9 theorem: redeclaring on the state produced by a first
successful declaration changes nothing. -/
theorem declare_snapshotted_idempotent_witness :
    declare_snapshotted
        ((declare_snapshotted exReadSeed 0).get
          declare_snapshotted_exReadSeed_isSome) 0 =
      some ((declare_snapshotted exReadSeed 0).get
        declare_snapshotted_exReadSeed_isSome) :=
  declare_snapshotted_idempotent exReadSeed _ 0
    (Option.some_get declare_snapshotted_exReadSeed_isSome).symm


section CountLemmas

/-- Number of elements of `l` whose image under `f` is `some p`. -/
def countIn (f : Nat → Option Nat) (p : Nat) : List Nat → Nat
  | [] => 0
  | a :: l => (if f a = some p then 1 else 0) + countIn f p l

theorem countIn_congr {f g : Nat → Option Nat} {p : Nat} {l : List Nat}
    (h : ∀ x ∈ l, f x = g x) : countIn f p l = countIn g p l := by
  induction l with
  | nil => rfl
  | cons a l ih =>
      simp only [countIn, h a (List.mem_cons_self a l),
        ih fun x hx => h x (List.mem_cons_of_mem a hx)]

theorem countIn_eq_zero {f : Nat → Option Nat} {p : Nat} {l : List Nat}
    (h : ∀ x ∈ l, ¬ f x = some p) : countIn f p l = 0 := by
  induction l with
  | nil => rfl
  | cons a l ih =>
      simp only [countIn, if_neg (h a (List.mem_cons_self a l)),
        ih fun x hx => h x (List.mem_cons_of_mem a hx)]

theorem countIn_pos {f : Nat → Option Nat} {p a : Nat} {l : List Nat}
    (ha : a ∈ l) (hfa : f a = some p) : 0 < countIn f p l := by
  induction l with
  | nil => cases ha
  | cons b l ih =>
      simp only [countIn]
      rcases List.mem_cons.1 ha with h | h
      · subst h
        rw [if_pos hfa]
        omega
      · have h2 := ih h
        omega

theorem countIn_cons_of_ne {f : Nat → Option Nat} {p a : Nat} {l : List Nat}
    (hfa : ¬ f a = some p) : countIn f p (a :: l) = countIn f p l := by
  simp [countIn, if_neg hfa]

theorem countIn_erase_of_ne {f : Nat → Option Nat} {p a : Nat} {l : List Nat}
    (hfa : ¬ f a = some p) : countIn f p (l.erase a) = countIn f p l := by
  induction l with
  | nil => rfl
  | cons b l ih =>
      rw [List.erase_cons]
      by_cases hb : b = a
      · subst hb
        rw [if_pos (by simp)]
        exact (countIn_cons_of_ne hfa).symm
      · rw [if_neg (by simpa using hb)]
        simp only [countIn, ih]

theorem countIn_erase_of_mem {f : Nat → Option Nat} {p a : Nat} {l : List Nat}
    (ha : a ∈ l) (hfa : f a = some p) :
    countIn f p (l.erase a) + 1 = countIn f p l := by
  induction l with
  | nil => cases ha
  | cons b l ih =>
      rw [List.erase_cons]
      by_cases hb : b = a
      · subst hb
        rw [if_pos (by simp)]
        simp only [countIn, if_pos hfa]
        omega
      · rw [if_neg (by simpa using hb)]
        have hal : a ∈ l := by
          rcases List.mem_cons.1 ha with h | h
          · exact absurd h.symm hb
          · exact h
        simp only [countIn]
        rw [← ih hal]
        omega

theorem countIn_update_to {f g : Nat → Option Nat} {p a : Nat} {l : List Nat}
    (hnd : l.Nodup) (ha : a ∈ l)
    (hg : ∀ x, x ≠ a → g x = f x)
    (hfa : ¬ f a = some p) (hga : g a = some p) :
    countIn g p l = countIn f p l + 1 := by
  have h1 : countIn g p (l.erase a) + 1 = countIn g p l :=
    countIn_erase_of_mem ha hga
  have h2 : countIn g p (l.erase a) = countIn f p (l.erase a) := by
    refine countIn_congr fun x hx => ?_
    exact hg x ((hnd.mem_erase_iff.1 hx).1)
  have h3 : countIn f p (l.erase a) = countIn f p l :=
    countIn_erase_of_ne hfa
  omega

theorem countIn_update_off {f g : Nat → Option Nat} {p a : Nat} {l : List Nat}
    (hg : ∀ x, x ≠ a → g x = f x)
    (hfa : ¬ f a = some p) (hga : ¬ g a = some p) :
    countIn g p l = countIn f p l := by
  induction l with
  | nil => rfl
  | cons b l ih =>
      simp only [countIn, ih]
      by_cases hb : b = a
      · subst hb
        rw [if_neg hfa, if_neg hga]
      · rw [hg b hb]

end CountLemmas


/-- Number of live, detached snapshot acquisitions currently referencing
page `p`. -/
def countSnap (s : State) (p : Nat) : Nat :=
  countIn (fun a => (s.acqs a).snapshotted_page) p s.live_acqs

/-- Well-formedness invariant of the cache state: allocated identities are
below the allocation counters, every queue holds distinct live acquisitions
that point back to their current page and are not yet snapshotted, a live
acquisition is attached to a queue or detached onto a snapshot but never
both, and the snapshot reference count of every page equals the number of
live, detached snapshot acquisitions referencing it. -/
structure Inv (s : State) : Prop where
  live_nodup : s.live_acqs.Nodup
  live_lt : ∀ a ∈ s.live_acqs, a < s.next_acq
  q_nodup : ∀ c, (s.cps c).acquirers.Nodup
  q_live : ∀ c, ∀ a ∈ (s.cps c).acquirers, a ∈ s.live_acqs
  q_cur : ∀ c, ∀ a ∈ (s.cps c).acquirers, (s.acqs a).current_page = some c
  snap_detached : ∀ a ∈ s.live_acqs,
    (s.acqs a).snapshotted_page = none ∨ (s.acqs a).current_page = none
  snap_lt : ∀ a ∈ s.live_acqs, ∀ p,
    (s.acqs a).snapshotted_page = some p → p < s.next_page
  cp_page_lt : ∀ c, ∀ p, (s.cps c).page = some p → p < s.next_page
  refcount_eq : ∀ p, (s.pages p).snapshot_refcount = countSnap s p

/-- A queued acquisition has no snapshot page yet. -/
theorem Inv.q_snap_none {s : State} (h : Inv s) {c a : Nat}
    (ha : a ∈ (s.cps c).acquirers) : (s.acqs a).snapshotted_page = none := by
  rcases h.snap_detached a (h.q_live c a ha) with h1 | h1
  · exact h1
  · rw [h.q_cur c a ha] at h1
    cases h1

/-- No live acquisition can reference a page at or beyond the allocation
counter, so such pages count zero snapshotters. -/
theorem countSnap_next (s : State) (h : Inv s) {p : Nat}
    (hp : s.next_page ≤ p) : countSnap s p = 0 := by
  refine countIn_eq_zero fun x hx hs => ?_
  have := h.snap_lt x hx p hs
  omega

/-- Transport of the invariant along a state change that only touches
acquisition fields other than the attachment ones. -/
theorem inv_of_conds_eq (s t : State)
    (hlive : t.live_acqs = s.live_acqs)
    (hna : t.next_acq = s.next_acq)
    (hnp : t.next_page = s.next_page)
    (hpages : t.pages = s.pages)
    (hcps : t.cps = s.cps)
    (hsnap : ∀ x, (t.acqs x).snapshotted_page = (s.acqs x).snapshotted_page)
    (hcur : ∀ x, (t.acqs x).current_page = (s.acqs x).current_page)
    (h : Inv s) : Inv t := by
  constructor
  · rw [hlive]
    exact h.live_nodup
  · intro a ha
    rw [hlive] at ha
    rw [hna]
    exact h.live_lt a ha
  · intro c
    rw [hcps]
    exact h.q_nodup c
  · intro c a ha
    rw [hcps] at ha
    rw [hlive]
    exact h.q_live c a ha
  · intro c a ha
    rw [hcps] at ha
    rw [hcur]
    exact h.q_cur c a ha
  · intro a ha
    rw [hlive] at ha
    rw [hsnap, hcur]
    exact h.snap_detached a ha
  · intro a ha p hp
    rw [hlive] at ha
    rw [hsnap] at hp
    rw [hnp]
    exact h.snap_lt a ha p hp
  · intro c p hp
    rw [hcps] at hp
    rw [hnp]
    exact h.cp_page_lt c p hp
  · intro p
    rw [hpages]
    have hcount : countSnap t p = countSnap s p := by
      unfold countSnap
      rw [hlive]
      exact countIn_congr fun x _ => hsnap x
    rw [hcount]
    exact h.refcount_eq p

theorem inv_setReadCond {s : State} {a : Nat} (h : Inv s) :
    Inv (setReadCond s a) :=
  inv_of_conds_eq s (setReadCond s a) rfl rfl rfl rfl rfl
    (fun _ => setReadCond_snap) (fun _ => setReadCond_cur) h

theorem inv_setWriteCond {s : State} {a : Nat} (h : Inv s) :
    Inv (setWriteCond s a) :=
  inv_of_conds_eq s (setWriteCond s a) rfl rfl rfl rfl rfl
    (fun _ => setWriteCond_snap) (fun _ => setWriteCond_cur) h

/-- Allocating a fresh page with no snapshot references and rebinding the
live-page slot of one current page to it preserves the invariant. -/
theorem inv_alloc_rebind {s : State} {cp : Nat} {r : PageRec} {bi : Option Nat}
    (h : Inv s) (hrc : r.snapshot_refcount = 0) :
    Inv (updCp { updPage s s.next_page r with next_page := s.next_page + 1 } cp
      { block_id := bi, page := some s.next_page,
        acquirers := (s.cps cp).acquirers }) := by
  constructor
  · exact h.live_nodup
  · exact h.live_lt
  · intro c
    by_cases hc : c = cp
    · subst hc
      simpa using h.q_nodup c
    · simpa [updCp_cps_of_ne hc] using h.q_nodup c
  · intro c a ha
    by_cases hc : c = cp
    · subst hc
      simp only [updCp_cps_self] at ha
      exact h.q_live c a ha
    · rw [updCp_cps_of_ne hc] at ha
      exact h.q_live c a ha
  · intro c a ha
    by_cases hc : c = cp
    · subst hc
      simp only [updCp_cps_self] at ha
      exact h.q_cur c a ha
    · rw [updCp_cps_of_ne hc] at ha
      exact h.q_cur c a ha
  · exact h.snap_detached
  · intro a ha p hp
    exact Nat.lt_succ_of_lt (h.snap_lt a ha p hp)
  · intro c p hp
    by_cases hc : c = cp
    · subst hc
      simp only [updCp_cps_self] at hp
      injection hp with hp2
      show p < s.next_page + 1
      omega
    · rw [updCp_cps_of_ne hc] at hp
      exact Nat.lt_succ_of_lt (h.cp_page_lt c p hp)
  · intro p
    show ((updPage s s.next_page r).pages p).snapshot_refcount = _
    have hcount : countSnap (updCp
        { updPage s s.next_page r with next_page := s.next_page + 1 } cp
        { block_id := bi, page := some s.next_page,
          acquirers := (s.cps cp).acquirers }) p = countSnap s p := rfl
    rw [hcount]
    by_cases hp : p = s.next_page
    · subst hp
      rw [updPage_pages_self, hrc, countSnap_next s h (Nat.le_refl _)]
    · rw [updPage_pages_of_ne hp]
      exact h.refcount_eq p

theorem inv_convert {s : State} {cp : Nat} (h : Inv s) :
    Inv (convert_from_serializer_if_necessary s cp) := by
  unfold convert_from_serializer_if_necessary
  cases hp : (s.cps cp).page with
  | some p => exact h
  | none => exact inv_alloc_rebind h rfl

theorem inv_the_page_for_read {s : State} {cp : Nat} (h : Inv s) :
    Inv (the_page_for_read s cp).2 :=
  inv_convert h

theorem inv_the_page_for_write {s : State} {cp : Nat} (h : Inv s) :
    Inv (the_page_for_write s cp).2 := by
  unfold the_page_for_write
  have h1 : Inv (convert_from_serializer_if_necessary s cp) := inv_convert h
  set s1 := convert_from_serializer_if_necessary s cp with hs1
  by_cases hs : has_snapshot_references s1 ((s1.cps cp).page.getD 0) = true
  · rw [if_pos hs]
    exact inv_alloc_rebind h1 rfl
  · rw [if_neg hs]
    exact h1


theorem the_page_for_read_page (s : State) (cp : Nat) :
    (((the_page_for_read s cp).2).cps cp).page =
      some (the_page_for_read s cp).1 := by
  unfold the_page_for_read
  cases h3 : ((convert_from_serializer_if_necessary s cp).cps cp).page with
  | none =>
      have h4 := @convert_page_isSome s cp
      rw [h3] at h4
      cases h4
  | some v => simp [h3]

theorem convert_next_page_ge (s : State) (cp : Nat) :
    s.next_page ≤ (convert_from_serializer_if_necessary s cp).next_page := by
  unfold convert_from_serializer_if_necessary
  cases h3 : (s.cps cp).page with
  | none =>
      show s.next_page ≤ s.next_page + 1
      omega
  | some v => exact Nat.le_refl _

theorem detach_page {s : State} {cp a c : Nat} :
    ((detach_snapshotter s cp a).cps c).page =
      (((the_page_for_read s cp).2).cps c).page := by
  by_cases hc : c = cp <;> simp [detach_snapshotter, hc]

theorem detach_next_page {s : State} {cp a : Nat} :
    (detach_snapshotter s cp a).next_page =
      ((the_page_for_read s cp).2).next_page := rfl

theorem detach_pages_of_ne {s : State} {cp a q : Nat}
    (hq : q ≠ (the_page_for_read s cp).1) :
    (detach_snapshotter s cp a).pages q =
      ((the_page_for_read s cp).2).pages q := by
  simp [detach_snapshotter, add_snapshotter, updPage_pages_of_ne hq]

theorem detach_pages_self {s : State} {cp a : Nat} :
    ((detach_snapshotter s cp a).pages
        (the_page_for_read s cp).1).snapshot_refcount =
      (((the_page_for_read s cp).2).pages
        (the_page_for_read s cp).1).snapshot_refcount + 1 := by
  simp [detach_snapshotter]

/-- Detaching a queued snapshotter preserves the invariant: the reference
count of the page it is handed and the number of detached snapshot handles
referencing it go up together. -/
theorem inv_detach {s : State} {cp a : Nat} (h : Inv s)
    (ha : a ∈ (s.cps cp).acquirers) : Inv (detach_snapshotter s cp a) := by
  have h2 : Inv (the_page_for_read s cp).2 := inv_the_page_for_read h
  have hq2 : ∀ c, (((the_page_for_read s cp).2).cps c).acquirers =
      (s.cps c).acquirers := fun c => the_page_for_read_acquirers
  have ha2 : a ∈ (((the_page_for_read s cp).2).cps cp).acquirers := by
    rw [hq2]
    exact ha
  have hsnapa : (s.acqs a).snapshotted_page = none := h.q_snap_none ha
  have hsnapa2 : ((((the_page_for_read s cp).2)).acqs a).snapshotted_page =
      none := by
    rw [the_page_for_read_acqs]
    exact hsnapa
  have hplt : (the_page_for_read s cp).1 <
      ((the_page_for_read s cp).2).next_page :=
    h2.cp_page_lt cp _ (the_page_for_read_page s cp)
  have hlive2 : (((the_page_for_read s cp).2)).live_acqs = s.live_acqs :=
    the_page_for_read_live
  have haLive : a ∈ s.live_acqs := h.q_live cp a ha
  constructor
  · rw [detach_live]
    exact h.live_nodup
  · intro b hb
    rw [detach_live] at hb
    rw [detach_next_acq]
    exact h.live_lt b hb
  · intro c
    rw [detach_acquirers]
    by_cases hc : c = cp
    · rw [if_pos hc]
      exact (h.q_nodup cp).erase a
    · rw [if_neg hc]
      exact h.q_nodup c
  · intro c b hb
    rw [detach_acquirers] at hb
    rw [detach_live]
    by_cases hc : c = cp
    · rw [if_pos hc] at hb
      exact h.q_live cp b (List.mem_of_mem_erase hb)
    · rw [if_neg hc] at hb
      exact h.q_live c b hb
  · intro c b hb
    rw [detach_acquirers] at hb
    by_cases hc : c = cp
    · subst hc
      rw [if_pos rfl] at hb
      have hba : b ≠ a := ((h.q_nodup c).mem_erase_iff.1 hb).1
      rw [detach_acqs_of_ne hba]
      exact h.q_cur c b (List.mem_of_mem_erase hb)
    · rw [if_neg hc] at hb
      have hba : b ≠ a := by
        intro hba
        subst hba
        have h5 := h.q_cur c b hb
        have h6 := h.q_cur cp b ha
        rw [h5] at h6
        injection h6 with h7
        exact hc h7
      rw [detach_acqs_of_ne hba]
      exact h.q_cur c b hb
  · intro b hb
    rw [detach_live] at hb
    by_cases hba : b = a
    · subst hba
      right
      rw [detach_acqs_self]
    · rw [detach_acqs_of_ne hba]
      exact h.snap_detached b hb
  · intro b hb q hq
    rw [detach_live] at hb
    rw [detach_next_page]
    by_cases hba : b = a
    · subst hba
      rw [detach_acqs_self] at hq
      simp only at hq
      injection hq with hq2
      rw [← hq2]
      exact hplt
    · rw [detach_acqs_of_ne hba] at hq
      have h5 : ((((the_page_for_read s cp).2)).acqs b).snapshotted_page =
          some q := by
        rw [the_page_for_read_acqs]
        exact hq
      exact h2.snap_lt b (by rw [hlive2]; exact hb) q h5
  · intro c q hq
    rw [detach_page] at hq
    rw [detach_next_page]
    exact h2.cp_page_lt c q hq
  · intro q
    have hga : ((detach_snapshotter s cp a).acqs a).snapshotted_page =
        some (the_page_for_read s cp).1 := by
      rw [detach_acqs_self]
    have hg : ∀ x, x ≠ a →
        ((detach_snapshotter s cp a).acqs x).snapshotted_page =
          ((((the_page_for_read s cp).2)).acqs x).snapshotted_page := by
      intro x hx
      rw [detach_acqs_of_ne hx, the_page_for_read_acqs]
    have hcount : countSnap (detach_snapshotter s cp a) q =
        countIn (fun x => ((detach_snapshotter s cp a).acqs x).snapshotted_page)
          q s.live_acqs := by
      unfold countSnap
      rw [detach_live]
    by_cases hqp : q = (the_page_for_read s cp).1
    · subst hqp
      rw [detach_pages_self, hcount]
      have h5 : countIn
          (fun x => ((detach_snapshotter s cp a).acqs x).snapshotted_page)
          (the_page_for_read s cp).1 s.live_acqs =
          countIn
            (fun x => ((((the_page_for_read s cp).2)).acqs x).snapshotted_page)
            (the_page_for_read s cp).1 s.live_acqs + 1 := by
        refine countIn_update_to h.live_nodup haLive hg ?_ hga
        rw [the_page_for_read_acqs, hsnapa]
        intro h6
        cases h6
      rw [h5]
      have h6 := h2.refcount_eq (the_page_for_read s cp).1
      unfold countSnap at h6
      rw [hlive2] at h6
      rw [h6]
    · rw [detach_pages_of_ne hqp, hcount]
      have h5 : countIn
          (fun x => ((detach_snapshotter s cp a).acqs x).snapshotted_page)
          q s.live_acqs =
          countIn
            (fun x => ((((the_page_for_read s cp).2)).acqs x).snapshotted_page)
            q s.live_acqs := by
        refine countIn_update_off hg ?_ ?_
        · rw [the_page_for_read_acqs, hsnapa]
          intro h6
          cases h6
        · rw [hga]
          intro h6
          injection h6 with h7
          exact hqp h7.symm
      rw [h5]
      have h6 := h2.refcount_eq q
      unfold countSnap at h6
      rw [hlive2] at h6
      rw [h6]


/-- A handoff pass seeded inside one queue never touches an acquisition that
is not in that queue. -/
theorem pulse_pulsables_acqs_of_not_mem {s : State} {cp n x : Nat}
    (hx : x ∉ (s.cps cp).acquirers) :
    (pulse_pulsables s cp n).acqs x = s.acqs x := by
  simp only [pulse_pulsables]
  by_cases h1 : prev_ok s n (s.cps cp).acquirers = true
  · by_cases h2 : (s.acqs n).access = Access.read ∧ (s.acqs n).read_cond = true
    · rw [if_pos h1, if_pos h2]
    · rw [if_pos h1, if_neg h2]
      exact pulseWalk_acqs_of_not_mem cp _ s x
        fun hmem => hx (mem_of_mem_suffixFrom hmem)
  · rw [if_neg h1]

/-- The handoff walk preserves the invariant when run over a duplicate-free
chain of queued acquisitions. -/
theorem inv_pulseWalk {cp : Nat} {l : List Nat} {s : State}
    (h : Inv s) (hnd : l.Nodup)
    (hsub : ∀ x ∈ l, x ∈ (s.cps cp).acquirers) :
    Inv (pulseWalk cp s l) := by
  induction l generalizing s with
  | nil => exact h
  | cons cur rest ih =>
      have hcur : cur ∈ (s.cps cp).acquirers :=
        hsub cur (List.mem_cons_self cur rest)
      have hnd1 := List.nodup_cons.1 hnd
      simp only [pulseWalk]
      split_ifs with h1 h2
      · refine ih (inv_detach (inv_setReadCond h) (by simpa using hcur))
          hnd1.2 ?_
        intro x hx
        rw [detach_acquirers, if_pos rfl]
        simp only [setReadCond_cps]
        have hxc : x ≠ cur := fun he => hnd1.1 (he ▸ hx)
        exact (List.mem_erase_of_ne hxc).2 (hsub x (List.mem_cons_of_mem cur hx))
      · refine ih (inv_setReadCond h) hnd1.2 ?_
        intro x hx
        simpa using hsub x (List.mem_cons_of_mem cur hx)
      · exact inv_setWriteCond (inv_setReadCond h)
      · exact inv_setReadCond h

/-- The handoff pass preserves the invariant. -/
theorem inv_pulse_pulsables {s : State} {cp a : Nat} (h : Inv s) :
    Inv (pulse_pulsables s cp a) := by
  simp only [pulse_pulsables]
  by_cases h1 : prev_ok s a (s.cps cp).acquirers = true
  · by_cases h2 : (s.acqs a).access = Access.read ∧ (s.acqs a).read_cond = true
    · rw [if_pos h1, if_pos h2]
      exact h
    · rw [if_pos h1, if_neg h2]
      exact inv_pulseWalk h (suffixFrom_nodup (h.q_nodup cp))
        fun x hx => mem_of_mem_suffixFrom hx
  · rw [if_neg h1]
    exact h

/-- Appending a fresh live acquisition that points back to its current page
to that queue preserves the invariant. -/
theorem inv_add_acquirer {s : State} {cp a : Nat} (h : Inv s)
    (haLive : a ∈ s.live_acqs)
    (haCur : (s.acqs a).current_page = some cp)
    (haSnap : (s.acqs a).snapshotted_page = none)
    (haNotQ : ∀ c, a ∉ (s.cps c).acquirers) :
    Inv (add_acquirer s cp a) := by
  unfold add_acquirer
  apply inv_pulse_pulsables
  constructor
  · exact h.live_nodup
  · exact h.live_lt
  · intro c
    by_cases hc : c = cp
    · subst hc
      simp only [updCp_cps_self]
      rw [List.nodup_append]
      refine ⟨h.q_nodup c, List.nodup_singleton a, ?_⟩
      intro x hx hxa
      rw [List.mem_singleton] at hxa
      subst hxa
      exact haNotQ c hx
    · rw [updCp_cps_of_ne hc]
      exact h.q_nodup c
  · intro c b hb
    by_cases hc : c = cp
    · subst hc
      simp only [updCp_cps_self] at hb
      rcases List.mem_append.1 hb with hb | hb
      · exact h.q_live c b hb
      · rw [List.mem_singleton] at hb
        subst hb
        exact haLive
    · rw [updCp_cps_of_ne hc] at hb
      exact h.q_live c b hb
  · intro c b hb
    by_cases hc : c = cp
    · subst hc
      simp only [updCp_cps_self] at hb
      rcases List.mem_append.1 hb with hb | hb
      · exact h.q_cur c b hb
      · rw [List.mem_singleton] at hb
        subst hb
        exact haCur
    · rw [updCp_cps_of_ne hc] at hb
      exact h.q_cur c b hb
  · exact h.snap_detached
  · exact h.snap_lt
  · intro c p hp
    by_cases hc : c = cp
    · subst hc
      simp only [updCp_cps_self] at hp
      exact h.cp_page_lt c p hp
    · rw [updCp_cps_of_ne hc] at hp
      exact h.cp_page_lt c p hp
  · exact h.refcount_eq

/-- Constructing a new acquisition preserves the invariant. -/
theorem inv_new_acq {s : State} {cp : Nat} {acc : Access} (h : Inv s) :
    Inv (new_acq_ctor s cp acc).2 := by
  unfold new_acq_ctor
  have hfresh : ∀ b ∈ s.live_acqs, b ≠ s.next_acq := by
    intro b hb he
    have := h.live_lt b hb
    omega
  have hInv1 : Inv { updAcq s s.next_acq (freshAcq acc cp) with
      next_acq := s.next_acq + 1, live_acqs := s.next_acq :: s.live_acqs } := by
    constructor
    · refine List.nodup_cons.2 ⟨?_, h.live_nodup⟩
      intro hmem
      have := h.live_lt _ hmem
      omega
    · intro b hb
      show b < s.next_acq + 1
      rcases List.mem_cons.1 hb with hb | hb
      · omega
      · have := h.live_lt b hb
        omega
    · intro c
      exact h.q_nodup c
    · intro c b hb
      exact List.mem_cons_of_mem _ (h.q_live c b hb)
    · intro c b hb
      have hbne : b ≠ s.next_acq := hfresh b (h.q_live c b hb)
      show ((updAcq s s.next_acq (freshAcq acc cp)).acqs b).current_page = _
      rw [updAcq_acqs_of_ne hbne]
      exact h.q_cur c b hb
    · intro b hb
      rcases List.mem_cons.1 hb with hb | hb
      · subst hb
        left
        show ((updAcq s s.next_acq (freshAcq acc cp)).acqs
          s.next_acq).snapshotted_page = none
        rw [updAcq_acqs_self]
        rfl
      · have hbne : b ≠ s.next_acq := hfresh b hb
        show ((updAcq s s.next_acq (freshAcq acc cp)).acqs b).snapshotted_page
            = none ∨ ((updAcq s s.next_acq (freshAcq acc cp)).acqs b).current_page = none
        rw [updAcq_acqs_of_ne hbne]
        exact h.snap_detached b hb
    · intro b hb p hp
      rcases List.mem_cons.1 hb with hb | hb
      · subst hb
        rw [show ((updAcq s s.next_acq (freshAcq acc cp)).acqs s.next_acq) =
          freshAcq acc cp from updAcq_acqs_self] at hp
        cases hp
      · have hbne : b ≠ s.next_acq := hfresh b hb
        rw [show ((updAcq s s.next_acq (freshAcq acc cp)).acqs b) = s.acqs b
          from updAcq_acqs_of_ne hbne] at hp
        exact h.snap_lt b hb p hp
    · intro c p hp
      exact h.cp_page_lt c p hp
    · intro p
      show (s.pages p).snapshot_refcount = _
      have hc1 : countIn (fun x =>
          ((updAcq s s.next_acq (freshAcq acc cp)).acqs x).snapshotted_page) p
          (s.next_acq :: s.live_acqs) =
          countIn (fun x =>
            ((updAcq s s.next_acq (freshAcq acc cp)).acqs x).snapshotted_page) p
            s.live_acqs := by
        refine countIn_cons_of_ne ?_
        rw [updAcq_acqs_self]
        intro hcontra
        cases hcontra
      have hc2 : countIn (fun x =>
          ((updAcq s s.next_acq (freshAcq acc cp)).acqs x).snapshotted_page) p
          s.live_acqs =
          countIn (fun x => (s.acqs x).snapshotted_page) p s.live_acqs := by
        refine countIn_congr fun x hx => ?_
        rw [updAcq_acqs_of_ne (hfresh x hx)]
      show _ = countIn _ p (s.next_acq :: s.live_acqs)
      rw [hc1, hc2]
      exact h.refcount_eq p
  refine inv_add_acquirer hInv1 (List.mem_cons_self _ _) ?_ ?_ ?_
  · show ((updAcq s s.next_acq (freshAcq acc cp)).acqs s.next_acq).current_page
      = some cp
    rw [updAcq_acqs_self]
    rfl
  · show ((updAcq s s.next_acq (freshAcq acc cp)).acqs
      s.next_acq).snapshotted_page = none
    rw [updAcq_acqs_self]
    rfl
  · intro c hmem
    have hlt := h.live_lt _ (h.q_live c _ hmem)
    omega


/-- Unlinking an acquisition leaves its own record untouched: the subsequent
handoff pass is seeded at its former successor and only walks the remaining
queue. -/
theorem remove_acquirer_acqs_self {s : State} {cp a : Nat}
    (hnd : (s.cps cp).acquirers.Nodup) :
    (remove_acquirer s cp a).acqs a = s.acqs a := by
  simp only [remove_acquirer]
  split
  · rfl
  · refine pulse_pulsables_acqs_of_not_mem ?_
    simp only [updCp_cps_self]
    intro hmem
    exact (hnd.mem_erase_iff.1 hmem).1 rfl

/-- Erasing an attached acquisition from the live set and from its queue at
once preserves the invariant. -/
theorem inv_erase_attached {s : State} {cp a : Nat} (h : Inv s)
    (haLive : a ∈ s.live_acqs)
    (hcp : (s.acqs a).current_page = some cp)
    (hsnap : (s.acqs a).snapshotted_page = none) :
    Inv (updCp { s with live_acqs := s.live_acqs.erase a } cp
      { s.cps cp with acquirers := ((s.cps cp).acquirers).erase a }) := by
  have hnotq : ∀ c, c ≠ cp → a ∉ (s.cps c).acquirers := by
    intro c hc hmem
    have h5 := h.q_cur c a hmem
    rw [hcp] at h5
    injection h5 with h6
    exact hc h6.symm
  constructor
  · exact h.live_nodup.erase a
  · intro b hb
    exact h.live_lt b (List.mem_of_mem_erase hb)
  · intro c
    by_cases hc : c = cp
    · subst hc
      simp only [updCp_cps_self]
      exact (h.q_nodup c).erase a
    · rw [updCp_cps_of_ne hc]
      exact h.q_nodup c
  · intro c b hb
    show b ∈ s.live_acqs.erase a
    by_cases hc : c = cp
    · subst hc
      simp only [updCp_cps_self] at hb
      have hba : b ≠ a := ((h.q_nodup c).mem_erase_iff.1 hb).1
      exact (List.mem_erase_of_ne hba).2
        (h.q_live c b (List.mem_of_mem_erase hb))
    · rw [updCp_cps_of_ne hc] at hb
      have hba : b ≠ a := by
        intro he
        subst he
        exact hnotq c hc hb
      exact (List.mem_erase_of_ne hba).2 (h.q_live c b hb)
  · intro c b hb
    by_cases hc : c = cp
    · subst hc
      simp only [updCp_cps_self] at hb
      exact h.q_cur c b (List.mem_of_mem_erase hb)
    · rw [updCp_cps_of_ne hc] at hb
      exact h.q_cur c b hb
  · intro b hb
    exact h.snap_detached b (List.mem_of_mem_erase hb)
  · intro b hb p hp
    exact h.snap_lt b (List.mem_of_mem_erase hb) p hp
  · intro c p hp
    by_cases hc : c = cp
    · subst hc
      simp only [updCp_cps_self] at hp
      exact h.cp_page_lt c p hp
    · rw [updCp_cps_of_ne hc] at hp
      exact h.cp_page_lt c p hp
  · intro p
    show (s.pages p).snapshot_refcount =
      countIn (fun x => (s.acqs x).snapshotted_page) p (s.live_acqs.erase a)
    rw [countIn_erase_of_ne (by rw [hsnap]; intro hcontra; cases hcontra)]
    exact h.refcount_eq p

/-- The destructor path for an attached acquisition preserves the invariant. -/
theorem inv_remove_acquirer_erased {s : State} {cp a : Nat} (h : Inv s)
    (haLive : a ∈ s.live_acqs)
    (hcp : (s.acqs a).current_page = some cp)
    (hsnap : (s.acqs a).snapshotted_page = none) :
    Inv (remove_acquirer { s with live_acqs := s.live_acqs.erase a } cp a) := by
  have hbase := inv_erase_attached h haLive hcp hsnap
  simp only [remove_acquirer]
  split
  · exact hbase
  · exact inv_pulse_pulsables hbase

/-- Dropping a detached snapshot acquisition from the live set together with
its snapshot reference preserves the invariant. -/
theorem inv_erase_detached {s : State} {a p : Nat} (h : Inv s)
    (haLive : a ∈ s.live_acqs)
    (hcp : (s.acqs a).current_page = none)
    (hsnap : (s.acqs a).snapshotted_page = some p) :
    Inv (updPage { s with live_acqs := s.live_acqs.erase a } p
      { s.pages p with
        snapshot_refcount := (s.pages p).snapshot_refcount - 1 }) := by
  have hnotq : ∀ c, a ∉ (s.cps c).acquirers := by
    intro c hmem
    have h5 := h.q_cur c a hmem
    rw [hcp] at h5
    cases h5
  constructor
  · exact h.live_nodup.erase a
  · intro b hb
    exact h.live_lt b (List.mem_of_mem_erase hb)
  · intro c
    exact h.q_nodup c
  · intro c b hb
    show b ∈ s.live_acqs.erase a
    have hba : b ≠ a := by
      intro he
      subst he
      exact hnotq c hb
    exact (List.mem_erase_of_ne hba).2 (h.q_live c b hb)
  · intro c b hb
    exact h.q_cur c b hb
  · intro b hb
    exact h.snap_detached b (List.mem_of_mem_erase hb)
  · intro b hb q hq
    exact h.snap_lt b (List.mem_of_mem_erase hb) q hq
  · intro c q hq
    exact h.cp_page_lt c q hq
  · intro q
    by_cases hqp : q = p
    · subst hqp
      show (if q = q then { s.pages q with
          snapshot_refcount := (s.pages q).snapshot_refcount - 1 }
        else s.pages q).snapshot_refcount =
        countIn (fun x => (s.acqs x).snapshotted_page) q (s.live_acqs.erase a)
      rw [if_pos rfl]
      have h5 := @countIn_erase_of_mem (fun x => (s.acqs x).snapshotted_page)
        q a s.live_acqs haLive hsnap
      have h6 := h.refcount_eq q
      unfold countSnap at h6
      show (s.pages q).snapshot_refcount - 1 = _
      omega
    · show (if q = p then { s.pages p with
          snapshot_refcount := (s.pages p).snapshot_refcount - 1 }
        else s.pages q).snapshot_refcount =
        countIn (fun x => (s.acqs x).snapshotted_page) q (s.live_acqs.erase a)
      rw [if_neg hqp]
      rw [countIn_erase_of_ne (by
        rw [hsnap]
        intro hcontra
        injection hcontra with h7
        exact hqp h7.symm)]
      exact h.refcount_eq q

/-- Dropping an unattached, unsnapshotted acquisition from the live set
preserves the invariant. -/
theorem inv_erase_live_only {s : State} {a : Nat} (h : Inv s)
    (hcp : (s.acqs a).current_page = none)
    (hsnap : (s.acqs a).snapshotted_page = none) :
    Inv { s with live_acqs := s.live_acqs.erase a } := by
  have hnotq : ∀ c, a ∉ (s.cps c).acquirers := by
    intro c hmem
    have h5 := h.q_cur c a hmem
    rw [hcp] at h5
    cases h5
  constructor
  · exact h.live_nodup.erase a
  · intro b hb
    exact h.live_lt b (List.mem_of_mem_erase hb)
  · intro c
    exact h.q_nodup c
  · intro c b hb
    show b ∈ s.live_acqs.erase a
    have hba : b ≠ a := by
      intro he
      subst he
      exact hnotq c hb
    exact (List.mem_erase_of_ne hba).2 (h.q_live c b hb)
  · intro c b hb
    exact h.q_cur c b hb
  · intro b hb
    exact h.snap_detached b (List.mem_of_mem_erase hb)
  · intro b hb q hq
    exact h.snap_lt b (List.mem_of_mem_erase hb) q hq
  · intro c q hq
    exact h.cp_page_lt c q hq
  · intro q
    show (s.pages q).snapshot_refcount =
      countIn (fun x => (s.acqs x).snapshotted_page) q (s.live_acqs.erase a)
    rw [countIn_erase_of_ne (by rw [hsnap]; intro hcontra; cases hcontra)]
    exact h.refcount_eq q

/-- Destroying a live acquisition preserves the invariant. -/
theorem inv_destroy {s s' : State} {a : Nat} (h : Inv s)
    (haLive : a ∈ s.live_acqs)
    (hd : destroy_acq s a = some s') : Inv s' := by
  simp only [destroy_acq] at hd
  split at hd
  · rename_i cp hcp
    have hsnap : (s.acqs a).snapshotted_page = none := by
      rcases h.snap_detached a haLive with h1 | h1
      · exact h1
      · rw [hcp] at h1
        cases h1
    have hsnap1 : ((remove_acquirer
        { s with live_acqs := s.live_acqs.erase a } cp a).acqs
        a).snapshotted_page = none := by
      rw [@remove_acquirer_acqs_self
        { s with live_acqs := s.live_acqs.erase a } cp a (h.q_nodup cp)]
      exact hsnap
    split at hd
    · rename_i p hsn2
      rw [hsnap1] at hsn2
      cases hsn2
    · injection hd with hd2
      rw [← hd2]
      exact inv_remove_acquirer_erased h haLive hcp hsnap
  · rename_i hcp
    split at hd
    · rename_i p hsn
      simp only [remove_snapshotter] at hd
      split at hd
      · cases hd
      · injection hd with hd2
        rw [← hd2]
        exact inv_erase_detached h haLive hcp hsn
    · rename_i hsn
      injection hd with hd2
      rw [← hd2]
      exact inv_erase_live_only h hcp hsn


/-- A successful snapshot declaration preserves the invariant. -/
theorem inv_declare {s s' : State} {a : Nat} (h : Inv s)
    (hd : declare_snapshotted s a = some s') : Inv s' := by
  unfold declare_snapshotted at hd
  split_ifs at hd with h1 h2
  · injection hd with hd2
    rw [← hd2]
    exact h
  · split at hd
    · rename_i cp hcp
      injection hd with hd2
      rw [← hd2]
      apply inv_pulse_pulsables
      refine inv_of_conds_eq s _ rfl rfl rfl rfl rfl ?_ ?_ h
      · intro x
        by_cases hx : x = a
        · subst hx
          rw [updAcq_acqs_self]
        · rw [updAcq_acqs_of_ne hx]
      · intro x
        by_cases hx : x = a
        · subst hx
          rw [updAcq_acqs_self]
        · rw [updAcq_acqs_of_ne hx]
    · cases hd

/-- Registering an empty current page (no live page, empty queue) under some
current-page identity, with arbitrary changes to the block-id map and the
current-page allocation counter, preserves the invariant. -/
theorem inv_register_cp (s t : State) (h : Inv s)
    (hlive : t.live_acqs = s.live_acqs)
    (hna : t.next_acq = s.next_acq)
    (hnp : t.next_page = s.next_page)
    (hpages : t.pages = s.pages)
    (hacqs : t.acqs = s.acqs)
    (cid : Nat) (bi : Option Nat)
    (hcps : ∀ c, t.cps c = if c = cid then
        ({ block_id := bi, page := none, acquirers := [] } : CurrentPageRec)
      else s.cps c) : Inv t := by
  constructor
  · rw [hlive]
    exact h.live_nodup
  · intro a ha
    rw [hlive] at ha
    rw [hna]
    exact h.live_lt a ha
  · intro c
    rw [hcps]
    by_cases hc : c = cid
    · rw [if_pos hc]
      exact List.nodup_nil
    · rw [if_neg hc]
      exact h.q_nodup c
  · intro c b hb
    rw [hcps] at hb
    rw [hlive]
    by_cases hc : c = cid
    · rw [if_pos hc] at hb
      cases hb
    · rw [if_neg hc] at hb
      exact h.q_live c b hb
  · intro c b hb
    rw [hcps] at hb
    rw [hacqs]
    by_cases hc : c = cid
    · rw [if_pos hc] at hb
      cases hb
    · rw [if_neg hc] at hb
      exact h.q_cur c b hb
  · intro a ha
    rw [hlive] at ha
    rw [hacqs]
    exact h.snap_detached a ha
  · intro a ha p hp
    rw [hlive] at ha
    rw [hacqs] at hp
    rw [hnp]
    exact h.snap_lt a ha p hp
  · intro c p hp
    rw [hcps] at hp
    rw [hnp]
    by_cases hc : c = cid
    · rw [if_pos hc] at hp
      cases hp
    · rw [if_neg hc] at hp
      exact h.cp_page_lt c p hp
  · intro p
    rw [hpages]
    have hcount : countSnap t p = countSnap s p := by
      unfold countSnap
      rw [hlive]
      exact countIn_congr fun x _ => by rw [hacqs]
    rw [hcount]
    exact h.refcount_eq p

/-- `page_for_block_id` preserves the invariant. -/
theorem inv_page_for_block_id {s : State} {bid : Nat} (h : Inv s) :
    Inv (page_for_block_id s bid).2 := by
  simp only [page_for_block_id]
  split
  · exact inv_of_conds_eq s _ rfl rfl rfl rfl rfl (fun _ => rfl)
      (fun _ => rfl) h
  · exact inv_register_cp s _ h rfl rfl rfl rfl rfl s.next_cp (some bid)
      fun _ => rfl

/-- Allocating a fresh resident page with no snapshot references and
registering a new current page that owns it preserves the invariant. -/
theorem inv_alloc_register (s t : State) (h : Inv s)
    (hlive : t.live_acqs = s.live_acqs)
    (hna : t.next_acq = s.next_acq)
    (hnp : t.next_page = s.next_page + 1)
    (hacqs : t.acqs = s.acqs)
    (cid : Nat) (pr : PageRec) (hrc : pr.snapshot_refcount = 0)
    (hpages : ∀ q, t.pages q = if q = s.next_page then pr else s.pages q)
    (hcps : ∀ c, t.cps c = if c = cid then
        ({ block_id := none, page := some s.next_page,
           acquirers := [] } : CurrentPageRec)
      else s.cps c) : Inv t := by
  constructor
  · rw [hlive]
    exact h.live_nodup
  · intro a ha
    rw [hlive] at ha
    rw [hna]
    exact h.live_lt a ha
  · intro c
    rw [hcps]
    by_cases hc : c = cid
    · rw [if_pos hc]
      exact List.nodup_nil
    · rw [if_neg hc]
      exact h.q_nodup c
  · intro c b hb
    rw [hcps] at hb
    rw [hlive]
    by_cases hc : c = cid
    · rw [if_pos hc] at hb
      cases hb
    · rw [if_neg hc] at hb
      exact h.q_live c b hb
  · intro c b hb
    rw [hcps] at hb
    rw [hacqs]
    by_cases hc : c = cid
    · rw [if_pos hc] at hb
      cases hb
    · rw [if_neg hc] at hb
      exact h.q_cur c b hb
  · intro a ha
    rw [hlive] at ha
    rw [hacqs]
    exact h.snap_detached a ha
  · intro a ha p hp
    rw [hlive] at ha
    rw [hacqs] at hp
    rw [hnp]
    have := h.snap_lt a ha p hp
    omega
  · intro c p hp
    rw [hcps] at hp
    rw [hnp]
    by_cases hc : c = cid
    · rw [if_pos hc] at hp
      injection hp with hp2
      omega
    · rw [if_neg hc] at hp
      have := h.cp_page_lt c p hp
      omega
  · intro p
    rw [hpages]
    have hcount : countSnap t p = countSnap s p := by
      unfold countSnap
      rw [hlive]
      exact countIn_congr fun x _ => by rw [hacqs]
    rw [hcount]
    by_cases hp : p = s.next_page
    · rw [if_pos hp, hrc, hp]
      exact (countSnap_next s h (Nat.le_refl _)).symm
    · rw [if_neg hp]
      exact h.refcount_eq p

/-- `page_for_new_block_id` preserves the invariant. -/
theorem inv_page_for_new_block_id {s : State} {buf : List Nat} (h : Inv s) :
    Inv (page_for_new_block_id s buf).2.2 :=
  inv_alloc_register s _ h rfl rfl rfl rfl s.next_cp
    { buf := some buf, buf_size := s.block_size, block_token := none,
      snapshot_refcount := 0 } rfl (fun _ => rfl) (fun _ => rfl)

/-- A freshly constructed cache satisfies the invariant. -/
theorem inv_mkInit (bs : Nat) (fl : List Nat) : Inv (mkInit bs fl) := by
  constructor
  · exact List.nodup_nil
  · intro a ha
    cases ha
  · intro c
    exact List.nodup_nil
  · intro c a ha
    cases ha
  · intro c a ha
    cases ha
  · intro a ha
    cases ha
  · intro a ha p hp
    cases ha
  · intro c p hp
    simp [mkInit] at hp
  · intro p
    rfl

/-- The states a cache can reach: a freshly constructed cache followed by
any interleaving of the public operations of the source (block-id lookup,
fresh-block creation, acquisition construction and destruction, snapshot
declaration, and the read/write page accessors that run the materialization
and copy-on-write paths). -/
inductive Reachable : State → Prop where
  | init (bs : Nat) (fl : List Nat) : Reachable (mkInit bs fl)
  | lookup (s : State) (bid : Nat) : Reachable s →
      Reachable (page_for_block_id s bid).2
  | newBlock (s : State) (buf : List Nat) : Reachable s →
      Reachable (page_for_new_block_id s buf).2.2
  | newAcq (s : State) (cp : Nat) (acc : Access) : Reachable s →
      Reachable (new_acq_ctor s cp acc).2
  | declSnap (s s' : State) (a : Nat) : Reachable s →
      declare_snapshotted s a = some s' → Reachable s'
  | destroy (s s' : State) (a : Nat) : Reachable s → a ∈ s.live_acqs →
      destroy_acq s a = some s' → Reachable s'
  | readPage (s : State) (cp : Nat) : Reachable s →
      Reachable (the_page_for_read s cp).2
  | writePage (s : State) (cp : Nat) : Reachable s →
      Reachable (the_page_for_write s cp).2

/-- Every reachable state satisfies the invariant. -/
theorem reachable_inv {s : State} (h : Reachable s) : Inv s := by
  induction h with
  | init bs fl => exact inv_mkInit bs fl
  | lookup s bid _ ih => exact inv_page_for_block_id ih
  | newBlock s buf _ ih => exact inv_page_for_new_block_id ih
  | newAcq s cp acc _ ih => exact inv_new_acq ih
  | declSnap s s' a _ hd ih => exact inv_declare ih hd
  | destroy s s' a _ hl hd ih => exact inv_destroy ih hl hd
  | readPage s cp _ ih => exact inv_the_page_for_read ih
  | writePage s cp _ ih => exact inv_the_page_for_write ih

/-- C7: in every reachable cache state, the snapshot reference count of
every page -- a natural number, so it can never be negative, and the
embedded `remove_snapshotter` refuses (fatally asserts) rather than going
below zero -- equals the number of live, detached snapshot acquisitions
currently referencing that page; and calling `remove_snapshotter` on a page
whose count is zero is exactly the fatal contract violation branch. -/
theorem snapshot_refcount_invariant {s : State} (h : Reachable s) :
    (∀ p, (s.pages p).snapshot_refcount = countSnap s p) ∧
    (∀ p, (s.pages p).snapshot_refcount = 0 →
      remove_snapshotter s p = none) := by
  refine ⟨(reachable_inv h).refcount_eq, ?_⟩
  intro p hp
  unfold remove_snapshotter
  rw [if_pos hp]


/-- Concrete run for the C7 witness: a cache with block size 2, current page
for block 0, a write acquisition followed by a read acquisition that
declares itself a snapshotter while blocked behind the writer; destroying
the writer triggers the handoff pass that detaches the snapshotter. -/
def w7s0 : State := mkInit 2 []

def w7s1 : State := (page_for_block_id w7s0 0).2

def w7s2 : State := (new_acq_ctor w7s1 0 Access.write).2

def w7s3 : State := (new_acq_ctor w7s2 0 Access.read).2

theorem w7_declare_isSome : (declare_snapshotted w7s3 1).isSome = true := by
  decide

def w7s4 : State := (declare_snapshotted w7s3 1).get w7_declare_isSome

theorem w7_destroy_isSome : (destroy_acq w7s4 0).isSome = true := by decide

def w7s5 : State := (destroy_acq w7s4 0).get w7_destroy_isSome

theorem w7_reachable : Reachable w7s5 :=
  Reachable.destroy w7s4 w7s5 0
    (Reachable.declSnap w7s3 w7s4 1
      (Reachable.newAcq w7s2 0 Access.read
        (Reachable.newAcq w7s1 0 Access.write
          (Reachable.lookup w7s0 0 (Reachable.init 2 []))))
      (Option.some_get w7_declare_isSome).symm)
    (by decide)
    (Option.some_get w7_destroy_isSome).symm

/-- Witness for the C7 theorem at the end of the concrete run, where one
detached snapshot acquisition references page 0 and the count is one. -/
theorem snapshot_refcount_invariant_witness :
    (w7s5.pages 0).snapshot_refcount = countSnap w7s5 0 :=
  (snapshot_refcount_invariant w7_reachable).1 0

end Alt
